import Mathlib

/-!
# Verification of the open-cv-gen CV extraction / rendering core

A shallow embedding of the repository source in Lean 4:

* `src/app/cv_data.py` — `CVDataExtractor` and `CVRenderer` over a
  BeautifulSoup-style HTML tree (`Node`),
* `src/app/skill_analyzer.py` — the skill-merge part of
  `SkillAnalyzer.add_skills_to_cv`,
* `src/app/ai_client.py` — the fence-stripping / JSON-fallback control
  flow of `AIClient.tailor_cv`,
* `src/app/routes.py` — the gap-analysis question/answer session steps.

Python strings are modelled through small executable functions over
`List Char` (`pyStrip`, `pySplit`, `pyIn`, ...) that mirror the exact
Python primitives used by the source (`str.strip`, `str.split`,
`in`, `str.lower`, `int(...)`).
-/

set_option autoImplicit false
set_option maxRecDepth 8192
set_option maxHeartbeats 2000000

namespace OpenCvGen

/-! ## Python string primitives -/

/-- Whitespace characters recognised by Python `str.strip()`. -/
def pyIsSpace (c : Char) : Bool :=
  c = ' ' || c = '\t' || c = '\n' || c = '\r' || c = '\x0b' || c = '\x0c'

def pyStripList (l : List Char) : List Char :=
  ((l.dropWhile pyIsSpace).reverse.dropWhile pyIsSpace).reverse

/-- Python `s.strip()`. -/
def pyStrip (s : String) : String :=
  ⟨pyStripList s.data⟩

/-- Python `s.lower()` (ASCII case folding; the source only compares ASCII). -/
def pyLower (s : String) : String :=
  ⟨s.data.map Char.toLower⟩

/-- Python `needle in hay` substring test, on character lists. -/
def pyInList (needle : List Char) : List Char → Bool
  | [] => needle.isEmpty
  | c :: t => needle.isPrefixOf (c :: t) || pyInList needle t

/-- Python `needle in hay` on strings. -/
def pyIn (needle hay : String) : Bool :=
  pyInList needle.data hay.data

/-- If `sep` is a prefix of `l`, return the remainder. -/
def dropPref? : List Char → List Char → Option (List Char)
  | [], l => some l
  | _, [] => none
  | s :: ss, c :: cs => if s = c then dropPref? ss cs else none

/-- Worker for `pySplit`, fuelled (every call site has a nonempty
separator, so the fuel `l.length + 1` is never exhausted). -/
def pySplitAux (sep : List Char) : Nat → List Char → List Char → List (List Char)
  | 0, acc, l => [acc.reverse ++ l]
  | _ + 1, acc, [] => [acc.reverse]
  | fuel + 1, acc, l@(c :: cs) =>
    match dropPref? sep l with
    | some rest => acc.reverse :: pySplitAux sep fuel [] rest
    | none => pySplitAux sep fuel (c :: acc) cs

/-- Python `s.split(sep)` for a nonempty separator: leftmost,
non-overlapping occurrences; keeps empty segments. -/
def pySplit (s sep : String) : List String :=
  (pySplitAux sep.data (s.data.length + 1) [] s.data).map List.asString

/-- Python `s.startswith(p)`. -/
def pyStartswith (s p : String) : Bool :=
  p.data.isPrefixOf s.data

/-- Python `s.endswith(p)`. -/
def pyEndswith (s p : String) : Bool :=
  p.data.reverse.isPrefixOf s.data.reverse

/-- Python slice `s[2:-2]` (used on strings already known to start and
end with the bold marker). -/
def pySlice2m2 (s : String) : String :=
  ⟨(s.data.drop 2).take (s.data.length - 4)⟩

def digitsVal? : List Char → Option Nat
  | [] => none
  | l =>
    if l.all Char.isDigit then
      some (l.foldl (fun acc c => acc * 10 + c.toNat - '0'.toNat) 0)
    else none

/-- Python `int(s)`: surrounding whitespace allowed, optional sign,
decimal digits; `none` models a raised `ValueError`. -/
def pyInt? (s : String) : Option Int :=
  match pyStripList s.data with
  | '-' :: rest => (digitsVal? rest).map (fun n => -(n : Int))
  | '+' :: rest => (digitsVal? rest).map Int.ofNat
  | l => (digitsVal? l).map Int.ofNat

/-- Python `s.replace(old, new)`. -/
def pyReplace (s old new : String) : String :=
  String.join (List.intersperse new (pySplit s old))

/-! ## HTML tree model (the BeautifulSoup document tree)

`html.parser` based BeautifulSoup parses markup into a tree of tags and
text; we embed the parsed tree directly.  The soup object itself is the
`"[document]"` root element. -/

inductive Node where
  | elem (tag : String) (attrs : List (String × String)) (children : List Node)
  | text (s : String)

/-- The soup root (`BeautifulSoup(html, "html.parser")`). -/
def soupDoc (ns : List Node) : Node :=
  .elem "[document]" [] ns

/-- First value of an attribute, `none` when absent. -/
def getAttr? (attrs : List (String × String)) (k : String) : Option String :=
  (attrs.find? (fun kv => kv.1 = k)).map (fun kv => kv.2)

/-- `tag.get(k, d)` with default. -/
def getAttrD (attrs : List (String × String)) (k d : String) : String :=
  (getAttr? attrs k).getD d

/-- Split an attribute value on whitespace runs, as bs4 does for the
multi-valued `class` attribute. -/
def wsSplit (s : String) : List String :=
  ((s.data.splitOnP pyIsSpace).filter (fun l => ¬ l.isEmpty)).map List.asString

/-- Class values of a node (empty when the `class` attribute is absent).
Note: nodes the renderer creates with the `class_` keyword argument get
a literal `class_` attribute (bs4 `new_tag` does not rename keyword
arguments), so they have no class values here. -/
def Node.classes : Node → List String
  | .elem _ attrs _ => match getAttr? attrs "class" with
    | some v => wsSplit v
    | none => []
  | .text _ => []

def Node.hasClass (c : String) (n : Node) : Bool :=
  n.classes.contains c

def Node.tagIs (t : String) : Node → Bool
  | .elem tag _ _ => tag = t
  | .text _ => false

def Node.attr? (k : String) : Node → Option String
  | .elem _ attrs _ => getAttr? attrs k
  | .text _ => none

mutual

/-- `tag.get_text()`: concatenation of every text descendant in order. -/
def Node.getText : Node → String
  | .text s => s
  | .elem _ _ cs => getTextList cs

def getTextList : List Node → String
  | [] => ""
  | n :: t => n.getText ++ getTextList t

end

mutual

/-- All descendants of a node in document (pre)order, excluding the
node itself — the order `find_all` / `find` search in. -/
def Node.descendants : Node → List Node
  | .text _ => []
  | .elem _ _ cs => descList cs

def descList : List Node → List Node
  | [] => []
  | n :: t => n :: n.descendants ++ descList t

end

/-- `soup.find_all(...)` with an arbitrary node predicate. -/
def findAll (p : Node → Bool) (n : Node) : List Node :=
  n.descendants.filter p

/-- `soup.find(...)`: first matching descendant in document order. -/
def findFirst? (p : Node → Bool) (n : Node) : Option Node :=
  (findAll p n).head?

/-! ## Tree editing primitives

The renderer mutates the soup in place; we model each in-place
operation as a pure rewriting of the tree. -/

/-- `tag.string = v`: the contents are replaced by a single string. -/
def setString (v : String) : Node → Node
  | .elem t a _ => .elem t a [.text v]
  | .text s => .text s

/-- `tag.clear()`. -/
def clearChildren : Node → Node
  | .elem t a _ => .elem t a []
  | .text s => .text s

/-- `tag.append(child)`. -/
def appendChild (c : Node) : Node → Node
  | .elem t a cs => .elem t a (cs ++ [c])
  | .text s => .text s

def appendChildren (l : List Node) (n : Node) : Node :=
  match n with
  | .elem t a cs => .elem t a (cs ++ l)
  | .text s => .text s

mutual

/-- `for x in node.find_all(p): x.decompose()` — every matching
descendant is removed (removing an outer match also removes the
matches nested inside it, exactly as decomposing the snapshot does). -/
def removeAll (p : Node → Bool) : Node → Node
  | .text s => .text s
  | .elem t a cs => .elem t a (removeAllList p cs)

def removeAllList (p : Node → Bool) : List Node → List Node
  | [] => []
  | n :: t =>
    if p n then removeAllList p t
    else removeAll p n :: removeAllList p t

end

mutual

/-- `x = node.find(p); if x: edit x` — rewrite the first matching
descendant in document order; the Bool reports whether one was found. -/
def editFirst (p : Node → Bool) (f : Node → Node) : Node → Node × Bool
  | .text s => (.text s, false)
  | .elem t a cs =>
    let r := editFirstList p f cs
    (.elem t a r.1, r.2)

def editFirstList (p : Node → Bool) (f : Node → Node) : List Node → List Node × Bool
  | [] => ([], false)
  | n :: t =>
    if p n then (f n :: t, true)
    else
      let r := editFirst p f n
      if r.2 then (r.1 :: t, true)
      else
        let rt := editFirstList p f t
        (r.1 :: rt.1, rt.2)

end

mutual

/-- `for i, x in enumerate(node.find_all(p)): edit i x` — rewrite every
matching node in document order, passing its match index.  The search
does not continue inside a matched node: the matched classes
(`skill-group`, `contact-item`) never nest in the template shape, so
this coincides with the snapshot semantics of `find_all`. -/
def editMatches (p : Node → Bool) (f : Nat → Node → Node) (k : Nat) :
    Node → Node × Nat
  | .text s => (.text s, k)
  | .elem t a cs =>
    let r := editMatchesList p f k cs
    (.elem t a r.1, r.2)

def editMatchesList (p : Node → Bool) (f : Nat → Node → Node) (k : Nat) :
    List Node → List Node × Nat
  | [] => ([], k)
  | n :: t =>
    if p n then
      let rt := editMatchesList p f (k + 1) t
      (f k n :: rt.1, rt.2)
    else
      let r := editMatches p f k n
      let rt := editMatchesList p f r.2 t
      (r.1 :: rt.1, rt.2)

end

/-- Search state of the section machinery: heading not seen yet /
heading seen but its section ancestor not yet reached / section edited. -/
inductive SecSt where
  | idle
  | pending
  | done

mutual

/-- The section idiom of the source:
`for h2 in soup.find_all(...): if target(h2): sec = h2.find_parent(anc); break`
followed by an in-place edit of `sec`.  We rewrite, at the nearest
`anc` ancestor of the first `target` descendant in document order, by
`f`; if the first target has no such ancestor (state stays `pending`),
or no target exists, the tree is unchanged (the section is silently
skipped). -/
def editAncNode (target anc : Node → Bool) (f : Node → Node) :
    Node → Node × SecSt
  | .text s => (.text s, .idle)
  | .elem t a cs =>
    let r := editAncList target anc f cs
    match r.2 with
    | .pending =>
      if anc (.elem t a r.1) then (f (.elem t a r.1), .done)
      else (.elem t a r.1, .pending)
    | st => (.elem t a r.1, st)

def editAncList (target anc : Node → Bool) (f : Node → Node) :
    List Node → List Node × SecSt
  | [] => ([], .idle)
  | n :: t =>
    if target n then (n :: t, .pending)
    else
      let r := editAncNode target anc f n
      match r.2 with
      | .idle =>
        let rt := editAncList target anc f t
        (r.1 :: rt.1, rt.2)
      | st => (r.1 :: t, st)

end

def editSection (target anc : Node → Bool) (f : Node → Node) (root : Node) :
    Node :=
  (editAncNode target anc f root).1

mutual

/-- Read-only version of the section idiom: the nearest `anc` ancestor
of the first `target` descendant, if any. -/
def findAncNode (target anc : Node → Bool) : Node → Option Node ⊕ Unit
  | .text _ => .inr ()
  | .elem t a cs =>
    match findAncList target anc cs with
    | .inl (some sec) => .inl (some sec)
    | .inl none =>
      if anc (.elem t a cs) then .inl (some (.elem t a cs))
      else .inl none
    | .inr () => .inr ()

def findAncList (target anc : Node → Bool) : List Node → Option Node ⊕ Unit
  | [] => .inr ()
  | n :: t =>
    if target n then .inl none
    else
      match findAncNode target anc n with
      | .inr () => findAncList target anc t
      | r => r

end

/-- `Option`-valued wrapper: `some sec` when the first target has an
`anc` ancestor, else `none` (no target, or target without ancestor). -/
def findSection? (target anc : Node → Bool) (root : Node) : Option Node :=
  match findAncNode target anc root with
  | .inl (some sec) => some sec
  | _ => none

def Node.attrs : Node → List (String × String)
  | .elem _ a _ => a
  | .text _ => []

def Node.children : Node → List Node
  | .elem _ _ cs => cs
  | .text _ => []

def attrsToStr : List (String × String) → String
  | [] => ""
  | (k, v) :: t => " " ++ k ++ "=\x22" ++ v ++ "\x22" ++ attrsToStr t

mutual

/-- `str(tag)`: plain serialization, used by the source only for the
substring heuristics on icon markup (text escaping is irrelevant for
those membership tests and is omitted). -/
def nodeToStr : Node → String
  | .text s => s
  | .elem t a cs =>
    "<" ++ t ++ attrsToStr a ++ ">" ++ nodesToStr cs ++ "</" ++ t ++ ">"

def nodesToStr : List Node → String
  | [] => ""
  | n :: t => nodeToStr n ++ nodesToStr t

end

/-! ## Node predicates used by the extractor / renderer -/

def isH2WithText (s : String) (n : Node) : Bool :=
  n.tagIs "h2" && pyStrip n.getText == s

def isDivClass (c : String) (n : Node) : Bool :=
  n.tagIs "div" && n.hasClass c

def isSpanClass (c : String) (n : Node) : Bool :=
  n.tagIs "span" && n.hasClass c

def isPClass (c : String) (n : Node) : Bool :=
  n.tagIs "p" && n.hasClass c

/-- `soup.find("p", style=lambda x: x and "font-size:1.25rem" in x)`. -/
def styledTitleP (n : Node) : Bool :=
  n.tagIs "p" &&
    (match n.attr? "style" with
     | some v => v ≠ "" && pyIn "font-size:1.25rem" v
     | none => false)

/-- `soup.find("img", alt=lambda x: x and "Noor" in x)`. -/
def imgNoorAlt (n : Node) : Bool :=
  n.tagIs "img" &&
    (match n.attr? "alt" with
     | some v => v ≠ "" && pyIn "Noor" v
     | none => false)

/-- `item.find("span", class_=lambda x: x != "contact-icon")`: bs4
calls the filter on each class value and on the joined string, so the
only spans rejected are those whose class list is exactly
`["contact-icon"]`. -/
def spanNotIcon (n : Node) : Bool :=
  n.tagIs "span" && !(n.classes == ["contact-icon"])

/-- `find_all("li", attrs={"data-list": "bullet"})`. -/
def isBulletLi (n : Node) : Bool :=
  n.tagIs "li" && (n.attr? "data-list" == some "bullet")

def getTextStrip (n : Node) : String :=
  pyStrip n.getText

/-! ## Document model (the JSON-shaped dicts built by the extractor) -/

structure Profile where
  name : Option String
  title : Option String
  image : Option String
deriving DecidableEq

structure Contact where
  phone : Option String
  email : Option String
  location : Option String
deriving DecidableEq

structure Link where
  text : String
  url : String
deriving DecidableEq

structure SkillGroup where
  category : String
  items : List String
deriving DecidableEq

structure LangEntry where
  name : String
  proficiency : Int
deriving DecidableEq

/-- One experience dict.  `description`/`bullets` are `some` exactly
when the `ql-editor` div was found (the keys exist in the dict). -/
structure ExpEntry where
  title : Option String
  date : Option String
  company : Option String
  location : Option String
  description : Option (List String)
  bullets : Option (List String)
  technologies : Option String
deriving DecidableEq

structure EduEntry where
  degree : Option String
  date : Option String
  institution : Option String
  location : Option String
  description : Option String
deriving DecidableEq

structure ProjEntry where
  title : Option String
  url : Option String
  date : Option String
  description : Option String
  bullets : Option (List String)
  technologies : Option String
deriving DecidableEq

structure CertEntry where
  title : Option String
  url : Option String
  date : Option String
  issuer : Option String
  description : Option String
deriving DecidableEq

structure Doc where
  profile : Profile
  contact : Contact
  links : List Link
  skills : List SkillGroup
  languages : List LangEntry
  summary : String
  experience : List ExpEntry
  education : List EduEntry
  projects : List ProjEntry
  certifications : List CertEntry
deriving DecidableEq

/-! ## CVDataExtractor (src/app/cv_data.py) -/

namespace CVDataExtractor

def extract_profile (soup : Node) : Profile where
  name := (findFirst? (Node.tagIs "h1") soup).map getTextStrip
  title := (findFirst? styledTitleP soup).map getTextStrip
  image := (findFirst? imgNoorAlt soup).map (fun img => getAttrD img.attrs "src" "")

/-- One step of the `_extract_contact` loop; a later item of the same
kind overwrites the dict entry. -/
def classifyContact (acc : Contact) (item : Node) : Contact :=
  match findFirst? (Node.tagIs "svg") item with
  | none => acc
  | some icon =>
    let txt := getTextStrip item
    if pyIn "phone" (nodeToStr icon) || pyIn "+46" txt then
      { acc with phone := some txt }
    else if pyIn "mail" (nodeToStr icon) || pyIn "@" txt then
      { acc with email := some txt }
    else if pyIn "house" (nodeToStr icon) || pyIn "Gothenburg" txt
        || pyIn "Stockholm" txt then
      { acc with location := some txt }
    else acc

def extract_contact (soup : Node) : Contact :=
  (findAll (isDivClass "contact-item") soup).foldl classifyContact ⟨none, none, none⟩

def extract_links (soup : Node) : List Link :=
  (findAll (isDivClass "contact-item") soup).filterMap (fun item =>
    (findFirst? (Node.tagIs "a") item).map (fun a =>
      { text := getTextStrip a, url := getAttrD a.attrs "href" "" }))

def extract_skills (soup : Node) : List SkillGroup :=
  (findAll (isDivClass "skill-group") soup).filterMap (fun group =>
    (findFirst? (isDivClass "skill-group-title") group).map (fun te =>
      { category := getTextStrip te
        items := (findAll (isSpanClass "skill-tag") group).map getTextStrip }))

/-- Proficiency from a `width:NN%` token in the inline style; parse
failure keeps the default 100. -/
def extractProficiency (item : Node) : Int :=
  match findFirst? (isDivClass "language-bar-fill") item with
  | none => 100
  | some bf =>
    let style := getAttrD bf.attrs "style" ""
    if pyIn "width:" style then
      match pyInt? (((pySplit ((pySplit style "width:").getD 1 "") "%").getD 0 "")) with
      | some v => v
      | none => 100
    else 100

def extract_languages (soup : Node) : List LangEntry :=
  match findSection? (isH2WithText "Languages") (isDivClass "space-y-3") soup with
  | none => []
  | some sec =>
    (findAll (isDivClass "space-y-1") sec).filterMap (fun item =>
      (findFirst? (isSpanClass "text-sm") item).map (fun ne =>
        { name := getTextStrip ne, proficiency := extractProficiency item }))

/-- Direct content of a paragraph as a `**bold**` string part:
`strong` children are fenced, string children kept, other tags
dropped. -/
def partToStr : Node → String
  | .elem "strong" _ cs => "**" ++ getTextList cs ++ "**"
  | .text s => s
  | .elem _ _ _ => ""

/-- The per-paragraph body of `_extract_summary`: with `strong` tags
present the string is reconstructed from the direct contents, else the
plain text is taken; both are stripped. -/
def extractPara (p : Node) : String :=
  if (findAll (Node.tagIs "strong") p).isEmpty then pyStrip p.getText
  else pyStrip (String.join (p.children.map partToStr))

def extract_summary (soup : Node) : String :=
  match findSection? (isH2WithText "Professional Summary")
      (isDivClass "space-y-3") soup with
  | none => ""
  | some parent =>
    match findFirst? (isDivClass "ql-editor") parent with
    | none => ""
    | some sec =>
      String.intercalate "\n\n" ((findAll (Node.tagIs "p") sec).map extractPara)

def extractExpItem (item : Node) : ExpEntry :=
  let title := (findFirst? (Node.tagIs "h3") item).map getTextStrip
  let date := (findFirst? (isSpanClass "date-badge") item).map getTextStrip
  let company := (findFirst? (isPClass "text-sm") item).map getTextStrip
  let location := (findFirst? (isPClass "text-xs") item).map getTextStrip
  match findFirst? (isDivClass "ql-editor") item with
  | none => ⟨title, date, company, location, none, none, none⟩
  | some qe =>
    let paragraphs := findAll (Node.tagIs "p") qe
    let description := paragraphs.filterMap (fun p =>
      let t := pyStrip p.getText
      if !(pyIn "Key Technologies" t) && t ≠ "" then some t else none)
    let bullets := (findAll isBulletLi qe).filterMap (fun b =>
      let t := getTextStrip b
      if t ≠ "" then some t else none)
    let tech := (paragraphs.find? (fun p => pyIn "Key Technologies" p.getText)).map
      (fun p => pyStrip (pyReplace (pyReplace p.getText "Key Technologies:" "")
        "Key Technologies" ""))
    ⟨title, date, company, location, some description, some bullets, tech⟩

def extract_experience (soup : Node) : List ExpEntry :=
  match findSection? (isH2WithText "Work Experience") (isDivClass "space-y-3") soup with
  | none => []
  | some sec => (findAll (isDivClass "timeline-item") sec).map extractExpItem

def extractEduItem (item : Node) : EduEntry where
  degree := (findFirst? (Node.tagIs "h3") item).map getTextStrip
  date := (findFirst? (isSpanClass "date-badge") item).map getTextStrip
  institution := (findFirst? (isPClass "text-sm") item).map getTextStrip
  location := (findFirst? (isPClass "text-xs") item).map getTextStrip
  description :=
    ((findFirst? (isDivClass "ql-editor") item).bind
      (findFirst? (Node.tagIs "p"))).map getTextStrip

def extract_education (soup : Node) : List EduEntry :=
  match findSection? (isH2WithText "Education") (isDivClass "space-y-3") soup with
  | none => []
  | some sec => (findAll (isDivClass "timeline-item") sec).map extractEduItem

/-- Title and optional URL from an `h3`, link variant first. -/
def titleUrl (item : Node) : Option String × Option String :=
  match findFirst? (Node.tagIs "h3") item with
  | none => (none, none)
  | some h3 =>
    match findFirst? (Node.tagIs "a") h3 with
    | some a => (some (getTextStrip a), some (getAttrD a.attrs "href" ""))
    | none => (some (getTextStrip h3), none)

def extractProjItem (item : Node) : ProjEntry :=
  let tu := titleUrl item
  let date := (findFirst? (isSpanClass "date-badge") item).map getTextStrip
  match findFirst? (isDivClass "ql-editor") item with
  | none => ⟨tu.1, tu.2, date, none, none, none⟩
  | some qe =>
    let paragraphs := findAll (Node.tagIs "p") qe
    let description := paragraphs.head?.map getTextStrip
    let bullets := (findAll isBulletLi qe).filterMap (fun b =>
      let t := getTextStrip b
      if t ≠ "" then some t else none)
    let tech := (paragraphs.find? (fun p => pyIn "Key Technologies" p.getText)).map
      (fun p => pyStrip (pyReplace p.getText "Key Technologies:" ""))
    ⟨tu.1, tu.2, date, description, some bullets, tech⟩

def extract_projects (soup : Node) : List ProjEntry :=
  match findSection? (isH2WithText "Projects") (isDivClass "space-y-3") soup with
  | none => []
  | some sec => (findAll (isDivClass "timeline-item") sec).map extractProjItem

def extractCertItem (item : Node) : CertEntry :=
  let tu := titleUrl item
  { title := tu.1
    url := tu.2
    date := (findFirst? (isSpanClass "date-badge") item).map getTextStrip
    issuer := (findFirst? (isPClass "text-sm") item).map getTextStrip
    description :=
      ((findFirst? (isDivClass "ql-editor") item).bind
        (findFirst? (Node.tagIs "p"))).map getTextStrip }

def extract_certifications (soup : Node) : List CertEntry :=
  match findSection? (isH2WithText "Certifications") (isDivClass "space-y-3") soup with
  | none => []
  | some sec => (findAll (isDivClass "timeline-item") sec).map extractCertItem

/-- `CVDataExtractor.extract`. -/
def extract (soup : Node) : Doc where
  profile := extract_profile soup
  contact := extract_contact soup
  links := extract_links soup
  skills := extract_skills soup
  languages := extract_languages soup
  summary := extract_summary soup
  experience := extract_experience soup
  education := extract_education soup
  projects := extract_projects soup
  certifications := extract_certifications soup

end CVDataExtractor

/-! ## CVRenderer (src/app/cv_data.py)

Nodes the renderer creates with the `class_` keyword argument carry a
literal `class_` attribute: bs4 `new_tag` passes keyword arguments
through as attribute names unchanged (only the search methods rename
`class_`), which is why the `svg` in `_render_links` is the one place
the source uses an explicit `attrs` dict with a real `class` key. -/

namespace CVRenderer

/-- `tag[k] = v`: replace the value in place, or add the attribute. -/
def setAttr (k v : String) : Node → Node
  | .elem t a cs =>
    if (getAttr? a k).isSome then
      .elem t (a.map (fun kv => if kv.1 = k then (k, v) else kv)) cs
    else .elem t (a ++ [(k, v)]) cs
  | .text s => .text s

/-- `container = section.find("div", class_="space-y-3") or section`
followed by appends into the container. -/
def appendIntoContainer (items : List Node) (sec : Node) : Node :=
  if (findFirst? (isDivClass "space-y-3") sec).isSome then
    (editFirst (isDivClass "space-y-3") (appendChildren items) sec).1
  else appendChildren items sec

def render_profile (soup : Node) (profile : Profile) : Node :=
  let s1 :=
    match profile.name with
    | some v => (editFirst (Node.tagIs "h1") (setString v) soup).1
    | none => soup
  match profile.title with
  | some v => (editFirst styledTitleP (setString v) s1).1
  | none => s1

/-- Body of the `_render_contact` loop for one contact item. -/
def renderContactItem (contact : Contact) (item : Node) : Node :=
  match findFirst? (Node.tagIs "svg") item with
  | none => item
  | some icon =>
    let txt := getTextStrip item
    if pyIn "phone" (nodeToStr icon) || pyIn "+46" txt then
      match contact.phone with
      | some v => (editFirst spanNotIcon (setString v) item).1
      | none => item
    else if pyIn "mail" (nodeToStr icon) || pyIn "@" txt then
      match contact.email with
      | some v => (editFirst spanNotIcon (setString v) item).1
      | none => item
    else if pyIn "house" (nodeToStr icon) || pyIn "Gothenburg" txt
        || pyIn "Stockholm" txt then
      match contact.location with
      | some v => (editFirst spanNotIcon (setString v) item).1
      | none => item
    else item

def render_contact (soup : Node) (contact : Contact) : Node :=
  (editMatches (isDivClass "contact-item") (fun _ => renderContactItem contact) 0 soup).1

/-- The clone structure `_render_links` builds for links beyond the
first (the outer div and icon span get the literal `class_` attribute;
the svg alone is given a real `class` through the attrs dict). -/
def cloneLink (l : Link) : Node :=
  .elem "div" [("class_", "contact-item")] [
    .elem "span" [("class_", "contact-icon")] [
      .elem "svg" [("class", "lucide lucide-globe"), ("fill", "none"),
        ("height", "16"), ("stroke", "currentColor"),
        ("stroke-linecap", "round"), ("stroke-linejoin", "round"),
        ("stroke-width", "2"), ("viewBox", "0 0 24 24"), ("width", "16"),
        ("xmlns", "http://www.w3.org/2000/svg")] []],
    .elem "a" [("href", l.url), ("target", "_blank"),
      ("rel", "noopener noreferrer")] [.text l.text]]

/-- A contact item that contains a link tag. -/
def contactItemWithA (n : Node) : Bool :=
  isDivClass "contact-item" n && (findFirst? (Node.tagIs "a") n).isSome

mutual

/-- Decompose every matching descendant except the first in document
order (`for x in existing[1:]: x.decompose()`). -/
def keepFirstNode (p : Node → Bool) (seen : Bool) : Node → Node × Bool
  | .text s => (.text s, seen)
  | .elem t a cs =>
    let r := keepFirstList p seen cs
    (.elem t a r.1, r.2)

def keepFirstList (p : Node → Bool) (seen : Bool) : List Node → List Node × Bool
  | [] => ([], seen)
  | n :: t =>
    if p n then
      if seen then keepFirstList p true t
      else
        let rt := keepFirstList p true t
        (n :: rt.1, rt.2)
    else
      let r := keepFirstNode p seen n
      let rt := keepFirstList p r.2 t
      (r.1 :: rt.1, rt.2)

end

/-- In-section body of `_render_links`. -/
def renderLinksSection (links : List Link) (sec : Node) : Node :=
  let sec1 := (keepFirstNode (isDivClass "contact-item") false sec).1
  if (findAll (isDivClass "contact-item") sec).isEmpty then
    appendChildren (links.map cloneLink) sec1
  else
    match links with
    | [] => sec1
    | l0 :: rest =>
      let sec2 := (editFirst (isDivClass "contact-item") (fun item =>
        (editFirst (Node.tagIs "a")
          (fun aT => setAttr "href" l0.url (setString l0.text aT)) item).1) sec1).1
      appendChildren (rest.map cloneLink) sec2

def render_links (soup : Node) (links : List Link) : Node :=
  if links.isEmpty then soup
  else editSection contactItemWithA (isDivClass "space-y-2")
    (renderLinksSection links) soup

/-- Update of the i-th template skill group from the i-th document
group: title overwritten, the `skill-tags` div cleared and refilled
with freshly built spans (which get the literal `class_` attribute). -/
def updateSkillGroup (data : SkillGroup) (group : Node) : Node :=
  let g1 := (editFirst (isDivClass "skill-group-title")
    (setString data.category) group).1
  (editFirst (isDivClass "skill-tags") (fun tagsDiv =>
    appendChildren (data.items.map (fun skill =>
      .elem "span" [("class_", "skill-tag")] [.text skill]))
      (clearChildren tagsDiv)) g1).1

def render_skills (soup : Node) (skills : List SkillGroup) : Node :=
  (editMatches (isDivClass "skill-group") (fun i group =>
    match skills.get? i with
    | some data => updateSkillGroup data group
    | none => group) 0 soup).1

/-- The language entry node built by `_render_languages`. -/
def mkLangItem (lang : LangEntry) : Node :=
  .elem "div" [("class_", "space-y-1")] [
    .elem "div" [("class_", "flex justify-between items-center gap-4")] [
      .elem "span" [("class_", "text-sm flex-1 min-w-0"), ("style", "color:#334155")]
        [.text lang.name]],
    .elem "div" [("class_", "language-bar")] [
      .elem "div" [("class_", "language-bar-fill"),
        ("style", "width:" ++ toString lang.proficiency ++ "%")] []]]

def render_languages (soup : Node) (languages : List LangEntry) : Node :=
  editSection (isH2WithText "Languages") (isDivClass "space-y-3") (fun sec =>
    appendIntoContainer (languages.map mkLangItem)
      (removeAll (isDivClass "space-y-1") sec)) soup

/-- One rendered summary paragraph (`_render_summary` inner loop):
wholly fenced text becomes a single bold node, text with inner fences
is split with odd segments bold, plain text is stripped. -/
def renderBoldPara (pt : String) : Node :=
  if pyStartswith pt "**" && pyEndswith pt "**" then
    .elem "p" [] [.elem "strong" [] [.text (pySlice2m2 pt)]]
  else if pyIn "**" pt then
    .elem "p" [] ((pySplit pt "**").enum.map (fun ip =>
      if ip.1 % 2 == 1 then Node.elem "strong" [] [.text ip.2] else .text ip.2))
  else .elem "p" [] [.text (pyStrip pt)]

/-- `_render_summary`.  The source loop keeps scanning later equal
headings when the first has no `space-y-3` ancestor; templates have
one summary heading, where this and the section machinery agree. -/
def render_summary (soup : Node) (summary : String) : Node :=
  if summary == "" then soup
  else
    editSection (isH2WithText "Professional Summary") (isDivClass "space-y-3")
      (fun parent =>
        (editFirst (isDivClass "ql-editor") (fun qe =>
          appendChildren
            ((pySplit summary "\n\n").filterMap (fun pt =>
              if pyStrip pt ≠ "" then some (renderBoldPara pt) else none))
            (clearChildren qe)) parent).1) soup

/-- Bullet `li` with the `ql-ui` span and `**bold**` expansion. -/
def mkBulletLi (btext : String) : Node :=
  .elem "li" [("data-list", "bullet")]
    (Node.elem "span" [("class_", "ql-ui"), ("contenteditable", "false")] [] ::
      (if pyIn "**" btext then
        (pySplit btext "**").enum.map (fun ip =>
          if ip.1 % 2 == 1 then Node.elem "strong" [] [.text ip.2] else .text ip.2)
      else [.text btext]))

def mkTechP (t : String) : Node :=
  .elem "p" [] [.elem "strong" [] [.text "Key Technologies: "], .text t]

/-- The timeline entry node built by `_render_experience`. -/
def mkExpItem (exp : ExpEntry) : Node :=
  .elem "div" [("class_", "timeline-item")] [
    .elem "div" [("class_", "timeline-dot")] [],
    .elem "div" [("class_", "flex justify-between items-baseline gap-4")] [
      .elem "h3" [("class_", "flex-1 min-w-0")] [.text (exp.title.getD "")],
      .elem "span" [("class_", "date-badge")] [.text (exp.date.getD "")]],
    .elem "div" [("class_", "flex justify-between items-baseline")] [
      .elem "p" [("class_", "text-sm flex-1 min-w-0")] [.text (exp.company.getD "")],
      .elem "p" [("class_", "flex-shrink-0 text-xs")] [.text (exp.location.getD "")]],
    .elem "div" [("class_", "ql-editor break-words text-sm leading-tight")]
      (((exp.description.getD []).map (fun d => Node.elem "p" [] [.text d])) ++
        (if !(exp.bullets.getD []).isEmpty then
          [Node.elem "ol" [] ((exp.bullets.getD []).map mkBulletLi)]
        else []) ++
        (match exp.technologies with
         | some t => if t ≠ "" then [mkTechP t] else []
         | none => []))]

def render_experience (soup : Node) (experience : List ExpEntry) : Node :=
  editSection (isH2WithText "Work Experience") (isDivClass "space-y-3") (fun sec =>
    appendIntoContainer (experience.map mkExpItem)
      (removeAll (isDivClass "timeline-item") sec)) soup

/-- The timeline entry node built by `_render_education`. -/
def mkEduItem (edu : EduEntry) : Node :=
  .elem "div" [("class_", "timeline-item")]
    ([Node.elem "div" [("class_", "timeline-dot")] [],
      .elem "div" [("class_", "flex justify-between items-baseline gap-4")] [
        .elem "h3" [("class_", "flex-1 min-w-0")] [.text (edu.degree.getD "")],
        .elem "span" [("class_", "date-badge")] [.text (edu.date.getD "")]],
      .elem "div" [("class_", "flex justify-between items-baseline")] [
        .elem "p" [("class_", "text-sm flex-1 min-w-0")] [.text (edu.institution.getD "")],
        .elem "p" [("class_", "flex-shrink-0 text-xs")] [.text (edu.location.getD "")]]] ++
      (match edu.description with
       | some d =>
         if d ≠ "" then
           [Node.elem "div" [("class_", "ql-editor break-words text-sm leading-tight")]
             [.elem "p" [] [.text d]]]
         else []
       | none => []))

def render_education (soup : Node) (education : List EduEntry) : Node :=
  editSection (isH2WithText "Education") (isDivClass "space-y-3") (fun sec =>
    appendIntoContainer (education.map mkEduItem)
      (removeAll (isDivClass "timeline-item") sec)) soup

/-- Title h3 with an anchor when a URL is present and truthy. -/
def mkTitleH3 (title url : Option String) : Node :=
  match url with
  | some u =>
    if u ≠ "" then
      .elem "h3" [("class_", "flex-1 min-w-0")]
        [.elem "a" [("href", u), ("target", "_blank"), ("rel", "noopener noreferrer")]
          [.text (title.getD "")]]
    else .elem "h3" [("class_", "flex-1 min-w-0")] [.text (title.getD "")]
  | none => .elem "h3" [("class_", "flex-1 min-w-0")] [.text (title.getD "")]

/-- The timeline entry node built by `_render_projects`. -/
def mkProjItem (proj : ProjEntry) : Node :=
  .elem "div" [("class_", "timeline-item")] [
    .elem "div" [("class_", "timeline-dot")] [],
    .elem "div" [("class_", "flex justify-between items-baseline gap-4")] [
      mkTitleH3 proj.title proj.url,
      .elem "span" [("class_", "date-badge")] [.text (proj.date.getD "")]],
    .elem "div" [("class_", "ql-editor break-words text-sm leading-tight")]
      ((match proj.description with
        | some d => if d ≠ "" then [Node.elem "p" [] [.text d]] else []
        | none => []) ++
        (if !(proj.bullets.getD []).isEmpty then
          [Node.elem "ol" [] ((proj.bullets.getD []).map mkBulletLi)]
        else []) ++
        (match proj.technologies with
         | some t => if t ≠ "" then [mkTechP t] else []
         | none => []))]

def render_projects (soup : Node) (projects : List ProjEntry) : Node :=
  editSection (isH2WithText "Projects") (isDivClass "space-y-3") (fun sec =>
    appendIntoContainer (projects.map mkProjItem)
      (removeAll (isDivClass "timeline-item") sec)) soup

/-- The timeline entry node built by `_render_certifications`. -/
def mkCertItem (cert : CertEntry) : Node :=
  .elem "div" [("class_", "timeline-item")]
    ([Node.elem "div" [("class_", "timeline-dot")] [],
      .elem "div" [("class_", "flex justify-between items-baseline gap-4")] [
        mkTitleH3 cert.title cert.url,
        .elem "span" [("class_", "date-badge")] [.text (cert.date.getD "")]]] ++
      (match cert.issuer with
       | some i =>
         if i ≠ "" then
           [Node.elem "div" [("class_", "flex justify-between items-baseline")]
             [.elem "p" [("class_", "text-sm flex-1 min-w-0")] [.text i]]]
         else []
       | none => []) ++
      (match cert.description with
       | some d =>
         if d ≠ "" then
           [Node.elem "div" [("class_", "ql-editor break-words text-sm leading-tight")]
             [.elem "p" [] [.text d]]]
         else []
       | none => []))

def render_certifications (soup : Node) (certifications : List CertEntry) : Node :=
  editSection (isH2WithText "Certifications") (isDivClass "space-y-3") (fun sec =>
    appendIntoContainer (certifications.map mkCertItem)
      (removeAll (isDivClass "timeline-item") sec)) soup

/-- `CVRenderer.render`: the ten in-place passes in source order (the
final `str(soup)` serialization is elided; the rendered tree is the
result). -/
def render (template : Node) (d : Doc) : Node :=
  let s := render_profile template d.profile
  let s := render_contact s d.contact
  let s := render_links s d.links
  let s := render_skills s d.skills
  let s := render_languages s d.languages
  let s := render_summary s d.summary
  let s := render_experience s d.experience
  let s := render_education s d.education
  let s := render_projects s d.projects
  render_certifications s d.certifications

end CVRenderer

/-! ## SkillAnalyzer.add_skills_to_cv (src/app/skill_analyzer.py) -/

namespace SkillAnalyzer

/-- The `for skill_group in ...: if cond: target = skill_group; break`
loop, as the index of the chosen group. -/
def findGroupIdx (p : SkillGroup → Bool) : List SkillGroup → Option Nat
  | [] => none
  | g :: t => if p g then some 0 else (findGroupIdx p t).map (· + 1)

/-- Target category selection of `add_skills_to_cv`: preferred category
as case-insensitive substring, else a category containing "technical",
else the first group, else none. -/
def selectTargetIdx (skills : List SkillGroup) (skill_category : String) : Option Nat :=
  match findGroupIdx (fun g => pyIn (pyLower skill_category) (pyLower g.category)) skills with
  | some i => some i
  | none =>
    match findGroupIdx (fun g => pyIn "technical" (pyLower g.category)) skills with
    | some i => some i
    | none => if skills.isEmpty then none else some 0

/-- The merge loop: each skill is stripped, dropped when empty, and
checked against `existing_items` — the set snapshotted from the items
present *before* the loop, which is not updated as skills are
appended. -/
def mergeItems (items : List String) (new_skills : List String) : List String :=
  let existing := items
  new_skills.foldl (fun acc skill =>
    let c := pyStrip skill
    if c ≠ "" && !(existing.contains c) then acc ++ [c] else acc) items

/-- In-place update of the list element holding the chosen group. -/
def updateGroupAt (f : SkillGroup → SkillGroup) : Nat → List SkillGroup → List SkillGroup
  | _, [] => []
  | 0, g :: t => f g :: t
  | n + 1, g :: t => g :: updateGroupAt f n t

/-- The pure skills part of `add_skills_to_cv` (between extraction and
re-rendering). -/
def add_skills_merge (skills : List SkillGroup) (new_skills : List String)
    (skill_category : String) : List SkillGroup :=
  match selectTargetIdx skills skill_category with
  | none => skills
  | some i => updateGroupAt
      (fun g => { g with items := mergeItems g.items new_skills }) i skills

/-- `add_skills_to_cv` end to end: extract, merge into the chosen
category, re-render against the base template (the template file read
from storage is a parameter; the default `skill_category` is
"Technical Skills"). -/
def add_skills_to_cv (cv_soup template : Node) (new_skills : List String)
    (skill_category : String) : Node :=
  let cv_data := CVDataExtractor.extract cv_soup
  CVRenderer.render template
    { cv_data with
      skills := add_skills_merge cv_data.skills new_skills skill_category }

/-- The category-selection order as the spec states it, written over
`List.find?`: first group whose name contains the preferred category
case-insensitively, else the first whose name contains "technical",
else the head of the sequence. -/
def chooseCategorySpec (skills : List SkillGroup) (preferred : String) :
    Option SkillGroup :=
  match skills.find? (fun g => pyIn (pyLower preferred) (pyLower g.category)) with
  | some g => some g
  | none =>
    match skills.find? (fun g => pyIn "technical" (pyLower g.category)) with
    | some g => some g
    | none => skills.head?

end SkillAnalyzer

/-! ## Gap-analysis session (src/app/routes.py) -/

/-- One stored answer dict. -/
structure Answer where
  has_experience : Option Bool
  experience_level : String
  description : String
  related_experience : String
deriving DecidableEq

/-- The raw form fields of a POST to `/generate/questions`
(`request.form.get` yields `none` for a missing field). -/
structure QForm where
  has_experience : Option String
  experience_level : Option String
  description : Option String
  related_experience : Option String

/-- The `session["cv_generation"]` slice the question flow uses. -/
structure GapSession where
  skill_gaps : List String
  answers : List (String × Answer)
  current_skill_index : Nat
deriving DecidableEq

/-- Where the POST handler redirects. -/
inductive QPage where
  | asking
  | finalizing
deriving DecidableEq

/-- Python dict assignment `d[k] = v`: replace the value of an existing
key in place, else append the new key. -/
def dictInsert (k : String) (v : Answer) :
    List (String × Answer) → List (String × Answer)
  | [] => [(k, v)]
  | (k0, v0) :: t =>
    if k0 = k then (k, v) :: t else (k0, v0) :: dictInsert k v t

def dictGet? (k : String) : List (String × Answer) → Option Answer
  | [] => none
  | (k0, v0) :: t => if k0 = k then some v0 else dictGet? k t

/-- Building the answer dict from the form: a missing or empty
`has_experience` is treated as skip. -/
def answerOfForm (form : QForm) : Answer :=
  let v := match form.has_experience with
    | none => "skip"
    | some s => if s = "" then "skip" else s
  if v = "skip" then
    { has_experience := none, experience_level := "", description := "",
      related_experience := "" }
  else
    { has_experience := some (v = "yes")
      experience_level := (form.experience_level).getD ""
      description := pyStrip ((form.description).getD "")
      related_experience := pyStrip ((form.related_experience).getD "") }

/-- POST branch of the `questions` route: store the answer for the
current skill, then advance or move to finalize.  `none` models the
`IndexError` raised when the index is out of range. -/
def questions_post (s : GapSession) (form : QForm) : Option (GapSession × QPage) :=
  match s.skill_gaps.get? s.current_skill_index with
  | none => none
  | some current_skill =>
    let answers := dictInsert current_skill (answerOfForm form) s.answers
    if s.current_skill_index < s.skill_gaps.length - 1 then
      some (⟨s.skill_gaps, answers, s.current_skill_index + 1⟩, .asking)
    else
      some ({ s with answers := answers }, .finalizing)

/-- The `questions_previous` route: step the index back when positive;
the answer map is not touched. -/
def questions_previous (s : GapSession) : GapSession :=
  if 0 < s.current_skill_index then
    { s with current_skill_index := s.current_skill_index - 1 }
  else s

/-! ## AIClient.tailor_cv (src/app/ai_client.py) -/

namespace AIClient

/-- JSON values as `json.loads` produces them (floats are kept as
their lexeme; the renderer only consumes strings, arrays, objects and
integers). -/
inductive J where
  | null
  | bool (b : Bool)
  | int (n : Int)
  | float (lexeme : String)
  | str (s : String)
  | arr (xs : List J)
  | obj (kvs : List (String × J))

def jsonWs (c : Char) : Bool :=
  c = ' ' || c = '\t' || c = '\n' || c = '\r'

def skipWs (l : List Char) : List Char :=
  l.dropWhile jsonWs

def isHexDigit (c : Char) : Bool :=
  c.isDigit || ('a' ≤ c && c ≤ 'f') || ('A' ≤ c && c ≤ 'F')

def hexVal (c : Char) : Nat :=
  if c.isDigit then c.toNat - '0'.toNat
  else if 'a' ≤ c && c ≤ 'f' then c.toNat - 'a'.toNat + 10
  else c.toNat - 'A'.toNat + 10

/-- String body after the opening quote: returns the content and the
remainder after the closing quote. -/
def parseStr : Nat → List Char → Option (List Char × List Char)
  | 0, _ => none
  | _ + 1, [] => none
  | fuel + 1, c :: rest =>
    if c = '"' then some ([], rest)
    else if c = '\\' then
      match rest with
      | [] => none
      | e :: rest2 =>
        if e = 'u' then
          match rest2 with
          | h1 :: h2 :: h3 :: h4 :: rest3 =>
            if isHexDigit h1 && isHexDigit h2 && isHexDigit h3 && isHexDigit h4 then
              (parseStr fuel rest3).map (fun r =>
                (Char.ofNat (((hexVal h1 * 16 + hexVal h2) * 16 + hexVal h3) * 16
                  + hexVal h4) :: r.1, r.2))
            else none
          | _ => none
        else
          match
            (if e = '"' then some '"' else if e = '\\' then some '\\'
             else if e = '/' then some '/' else if e = 'b' then some '\x08'
             else if e = 'f' then some '\x0c' else if e = 'n' then some '\n'
             else if e = 'r' then some '\r' else if e = 't' then some '\t'
             else none) with
          | some d => (parseStr fuel rest2).map (fun r => (d :: r.1, r.2))
          | none => none
    else (parseStr fuel rest).map (fun r => (c :: r.1, r.2))

def digitSpan (l : List Char) : List Char × List Char :=
  (l.takeWhile Char.isDigit, l.dropWhile Char.isDigit)

/-- JSON number after an optional leading minus has been noted:
`0 | [1-9][0-9]*` then optional fraction and exponent. -/
def parseNumTail (neg : Bool) (l : List Char) : Option (J × List Char) :=
  match digitSpan l with
  | ([], _) => none
  | (d :: ds, rest) =>
    if d = '0' && ds ≠ [] then none
    else
      let intVal : Int :=
        (if neg then -1 else 1) *
          Int.ofNat ((d :: ds).foldl (fun a c => a * 10 + c.toNat - '0'.toNat) 0)
      let frac :=
        match rest with
        | '.' :: r =>
          match digitSpan r with
          | ([], _) => none
          | (fs, r2) => some (fs, r2)
        | _ => some ([], rest)
      match frac with
      | none => none
      | some (fs, rest2) =>
        let ex :=
          match rest2 with
          | 'e' :: r | 'E' :: r =>
            let r2 := match r with
              | '+' :: r3 => r3
              | '-' :: r3 => r3
              | _ => r
            match digitSpan r2 with
            | ([], _) => none
            | (es, r3) => some (es, r3)
          | _ => some ([], rest2)
        match ex with
        | none => none
        | some (es, rest3) =>
          if fs = [] && es = [] then some (.int intVal, rest3)
          else some (.float ((d :: ds) ++ fs ++ es).asString, rest3)

mutual

def parseVal : Nat → List Char → Option (J × List Char)
  | 0, _ => none
  | fuel + 1, l =>
    match skipWs l with
    | [] => none
    | '{' :: rest => parseMembers fuel (skipWs rest) true
    | '[' :: rest => parseElems fuel (skipWs rest) true
    | '"' :: rest => (parseStr (rest.length + 1) rest).map (fun r => (.str r.1.asString, r.2))
    | '-' :: rest => parseNumTail true rest
    | 't' :: 'r' :: 'u' :: 'e' :: rest => some (.bool true, rest)
    | 'f' :: 'a' :: 'l' :: 's' :: 'e' :: rest => some (.bool false, rest)
    | 'n' :: 'u' :: 'l' :: 'l' :: rest => some (.null, rest)
    | l2 => parseNumTail false l2

def parseMembers : Nat → List Char → Bool → Option (J × List Char)
  | 0, _, _ => none
  | _ + 1, '}' :: rest, true => some (.obj [], rest)
  | fuel + 1, l, _first =>
    match skipWs l with
    | '"' :: rest =>
      match parseStr (rest.length + 1) rest with
      | none => none
      | some (key, rest2) =>
        match skipWs rest2 with
        | ':' :: rest3 =>
          match parseVal fuel rest3 with
          | none => none
          | some (v, rest4) =>
            match skipWs rest4 with
            | ',' :: rest5 =>
              match parseMembers fuel (skipWs rest5) false with
              | some (.obj kvs, rest6) => some (.obj ((key.asString, v) :: kvs), rest6)
              | _ => none
            | '}' :: rest5 => some (.obj [(key.asString, v)], rest5)
            | _ => none
        | _ => none
    | _ => none

def parseElems : Nat → List Char → Bool → Option (J × List Char)
  | 0, _, _ => none
  | _ + 1, ']' :: rest, true => some (.arr [], rest)
  | fuel + 1, l, _first =>
    match parseVal fuel l with
    | none => none
    | some (v, rest) =>
      match skipWs rest with
      | ',' :: rest2 =>
        match parseElems fuel rest2 false with
        | some (.arr xs, rest3) => some (.arr (v :: xs), rest3)
        | _ => none
      | ']' :: rest2 => some (.arr [v], rest2)
      | _ => none

end

/-- `json.loads(s)` as a validity-preserving parser: the whole input
(up to trailing whitespace) must be one JSON value.  (The non-standard
`NaN`/`Infinity` extensions of the Python parser are not modelled; no
claim depends on them.) -/
def json_loads? (s : String) : Option J :=
  match parseVal (s.length + 1) s.data with
  | some (j, rest) => if skipWs rest = [] then some j else none
  | none => none

/-- The fenced-code-block stripping of `tailor_cv` /
`tailor_cv_with_answers`; `none` models an `IndexError`, which the
membership guards make unreachable (`stripFences_isSome`). -/
def stripFences (response : String) : Option String :=
  let s := pyStrip response
  if pyIn "```json" s then
    ((pySplit s "```json").get? 1).map (fun r =>
      pyStrip ((pySplit r "```").getD 0 ""))
  else if pyIn "```" s then
    ((pySplit s "```").get? 1).map (fun r =>
      pyStrip ((pySplit r "```").getD 0 ""))
  else some s

/-- Object lookup; duplicate keys in the source text end up with the
last value, as in a Python dict built in order. -/
def jGet? (k : String) : J → Option J
  | .obj kvs => ((kvs.reverse).find? (fun kv => kv.1 = k)).map (fun kv => kv.2)
  | _ => none

def jStr? : J → Option String
  | .str s => some s
  | _ => none

def jArr : J → List J
  | .arr xs => xs
  | _ => []

def jInt? : J → Option Int
  | .int n => some n
  | _ => none

def jStrings (j : Option J) : List String :=
  (j.map jArr).getD [] |>.filterMap jStr?

/-- The parsed `tailored_data` dict as the renderer reads it: every
access in `CVRenderer` is `.get(key, default)`, mirrored by the
defaults below (values of an unexpected type are out of the modelled
scope — the renderer would raise on them, and no claim covers that
path). -/
def docOfJson (j : J) : Doc where
  profile :=
    { name := (jGet? "profile" j).bind (jGet? "name") |>.bind jStr?
      title := (jGet? "profile" j).bind (jGet? "title") |>.bind jStr?
      image := (jGet? "profile" j).bind (jGet? "image") |>.bind jStr? }
  contact :=
    { phone := (jGet? "contact" j).bind (jGet? "phone") |>.bind jStr?
      email := (jGet? "contact" j).bind (jGet? "email") |>.bind jStr?
      location := (jGet? "contact" j).bind (jGet? "location") |>.bind jStr? }
  links := ((jGet? "links" j).map jArr).getD [] |>.map (fun lj =>
    { text := ((jGet? "text" lj).bind jStr?).getD ""
      url := ((jGet? "url" lj).bind jStr?).getD "" })
  skills := ((jGet? "skills" j).map jArr).getD [] |>.map (fun gj =>
    { category := ((jGet? "category" gj).bind jStr?).getD ""
      items := jStrings (jGet? "items" gj) })
  languages := ((jGet? "languages" j).map jArr).getD [] |>.map (fun lj =>
    { name := ((jGet? "name" lj).bind jStr?).getD ""
      proficiency := ((jGet? "proficiency" lj).bind jInt?).getD 100 })
  summary := ((jGet? "summary" j).bind jStr?).getD ""
  experience := ((jGet? "experience" j).map jArr).getD [] |>.map (fun ej =>
    { title := (jGet? "title" ej).bind jStr?
      date := (jGet? "date" ej).bind jStr?
      company := (jGet? "company" ej).bind jStr?
      location := (jGet? "location" ej).bind jStr?
      description := ((jGet? "description" ej).map jArr).map (·.filterMap jStr?)
      bullets := ((jGet? "bullets" ej).map jArr).map (·.filterMap jStr?)
      technologies := (jGet? "technologies" ej).bind jStr? })
  education := ((jGet? "education" j).map jArr).getD [] |>.map (fun ej =>
    { degree := (jGet? "degree" ej).bind jStr?
      date := (jGet? "date" ej).bind jStr?
      institution := (jGet? "institution" ej).bind jStr?
      location := (jGet? "location" ej).bind jStr?
      description := (jGet? "description" ej).bind jStr? })
  projects := ((jGet? "projects" j).map jArr).getD [] |>.map (fun pj =>
    { title := (jGet? "title" pj).bind jStr?
      url := (jGet? "url" pj).bind jStr?
      date := (jGet? "date" pj).bind jStr?
      description := (jGet? "description" pj).bind jStr?
      bullets := ((jGet? "bullets" pj).map jArr).map (·.filterMap jStr?)
      technologies := (jGet? "technologies" pj).bind jStr? })
  certifications := ((jGet? "certifications" j).map jArr).getD [] |>.map (fun cj =>
    { title := (jGet? "title" cj).bind jStr?
      url := (jGet? "url" cj).bind jStr?
      date := (jGet? "date" cj).bind jStr?
      issuer := (jGet? "issuer" cj).bind jStr?
      description := (jGet? "description" cj).bind jStr? })

/-- How `tailor_cv` ends (after the `generate` call returned
`response`): the fallback that returns the input `cv_html` verbatim
with a warning printed, or a render of the parsed document into the
base template. -/
inductive TailorResult where
  | fallback (cv_html : String)
  | rendered (tree : Node)

structure TailorOut where
  result : TailorResult
  warned : Bool

/-- The post-generate tail of `AIClient.tailor_cv` (and of
`tailor_cv_with_answers`, which is identical from the model response
on).  The prompt-building prefix only reads data; `response` stands
for the `generate` output, `template` for the template file read from
storage.  `none` models an uncaught exception. -/
def tailor_cv (response : String) (cv_html : String) (template : Node) :
    Option TailorOut :=
  (stripFences response).map (fun stripped =>
    match json_loads? stripped with
    | none => { result := .fallback cv_html, warned := true }
    | some j =>
      { result := .rendered (CVRenderer.render template (docOfJson j))
        warned := false })

end AIClient

/-! ## A canonical template instance

Modelled from the spec: the canonical template `cv.html` is data of the
repository that is not under src/ (it is read from storage at run
time).  The instance below follows the spec §3/§4.1 markup conventions
and the selectors the extractor uses: section headings in `h2` inside
`space-y-3` divs, `timeline-item` / `space-y-1` / `skill-group` entry
containers, `ql-editor` rich-text bodies, `contact-item` rows. -/

def contactItemT (svgCls txt : String) : Node :=
  .elem "div" [("class", "contact-item")] [
    .elem "span" [("class", "contact-icon")] [.elem "svg" [("class", svgCls)] []],
    .elem "span" [] [.text txt]]

def linkItemT (href txt : String) : Node :=
  .elem "div" [("class", "contact-item")] [
    .elem "span" [("class", "contact-icon")]
      [.elem "svg" [("class", "lucide lucide-globe")] []],
    .elem "a" [("href", href)] [.text txt]]

def skillGroupT (cat : String) (xs : List String) : Node :=
  .elem "div" [("class", "skill-group")] [
    .elem "div" [("class", "skill-group-title")] [.text cat],
    .elem "div" [("class", "skill-tags")]
      (xs.map (fun x => Node.elem "span" [("class", "skill-tag")] [.text x]))]

def langItemT (nm w : String) : Node :=
  .elem "div" [("class", "space-y-1")] [
    .elem "div" [("class", "flex justify-between items-center gap-4")] [
      .elem "span" [("class", "text-sm flex-1 min-w-0"), ("style", "color:#334155")]
        [.text nm]],
    .elem "div" [("class", "language-bar")] [
      .elem "div" [("class", "language-bar-fill"), ("style", "width:" ++ w ++ "%")] []]]

def tplHead : Node :=
  .elem "head" [] [
    .elem "title" [] [.text "CV"],
    .elem "meta" [("charset", "utf-8")] [],
    .elem "link" [("rel", "stylesheet"), ("href", "style.css")] [],
    .elem "script" [("src", "app.js")] []]

def tplContact : Node :=
  .elem "div" [("class", "space-y-2")] [
    contactItemT "lucide lucide-phone" "+46 70 123 45 67",
    contactItemT "lucide lucide-mail" "noor@example.com",
    contactItemT "lucide lucide-house" "Gothenburg, Sweden"]

def tplLinks : Node :=
  .elem "div" [("class", "space-y-2")] [
    linkItemT "https://github.com/noor" "GitHub",
    linkItemT "https://linkedin.com/in/noor" "LinkedIn"]

def tplSkills : Node :=
  .elem "div" [] [
    skillGroupT "Technical Skills" ["Python", "SQL"],
    skillGroupT "Soft Skills" ["Leadership"]]

def tplLanguages : Node :=
  .elem "div" [("class", "space-y-3")] [
    .elem "h2" [] [.text "Languages"],
    langItemT "Swedish" "100",
    langItemT "English" "90"]

def tplSummary : Node :=
  .elem "div" [("class", "space-y-3")] [
    .elem "h2" [] [.text "Professional Summary"],
    .elem "div" [("class", "ql-editor")] [
      .elem "p" [] [.text "A ", .elem "strong" [] [.text "B"], .text " C ",
        .elem "strong" [] [.text "D"], .text " E"]]]

def tplExperience : Node :=
  .elem "div" [("class", "space-y-3")] [
    .elem "h2" [] [.text "Work Experience"],
    .elem "div" [("class", "timeline-item")] [
      .elem "div" [("class", "timeline-dot")] [],
      .elem "h3" [] [.text "Engineer"],
      .elem "span" [("class", "date-badge")] [.text "2020 - 2024"],
      .elem "p" [("class", "text-sm flex-1 min-w-0")] [.text "Acme AB"],
      .elem "p" [("class", "flex-shrink-0 text-xs")] [.text "Gothenburg"],
      .elem "div" [("class", "ql-editor")] [
        .elem "p" [] [.text "Built systems."],
        .elem "ol" [] [
          .elem "li" [("data-list", "bullet")]
            [.elem "span" [("class", "ql-ui")] [], .text "Did X"]],
        .elem "p" [] [.elem "strong" [] [.text "Key Technologies: "], .text "Python"]]]]

def tplEducation : Node :=
  .elem "div" [("class", "space-y-3")] [
    .elem "h2" [] [.text "Education"],
    .elem "div" [("class", "timeline-item")] [
      .elem "h3" [] [.text "MSc CS"],
      .elem "span" [("class", "date-badge")] [.text "2016 - 2020"],
      .elem "p" [("class", "text-sm flex-1 min-w-0")] [.text "Chalmers"],
      .elem "p" [("class", "flex-shrink-0 text-xs")] [.text "Gothenburg"],
      .elem "div" [("class", "ql-editor")] [.elem "p" [] [.text "Thesis on parsing."]]]]

def tplProjects : Node :=
  .elem "div" [("class", "space-y-3")] [
    .elem "h2" [] [.text "Projects"],
    .elem "div" [("class", "timeline-item")] [
      .elem "h3" [] [.elem "a" [("href", "https://github.com/noor/cvgen")]
        [.text "cv-gen"]],
      .elem "span" [("class", "date-badge")] [.text "2024"],
      .elem "div" [("class", "ql-editor")] [.elem "p" [] [.text "CV generator."]]]]

def tplCertifications : Node :=
  .elem "div" [("class", "space-y-3")] [
    .elem "h2" [] [.text "Certifications"],
    .elem "div" [("class", "timeline-item")] [
      .elem "h3" [] [.text "AWS SAA"],
      .elem "span" [("class", "date-badge")] [.text "2023"],
      .elem "p" [("class", "text-sm flex-1 min-w-0")] [.text "Amazon"],
      .elem "div" [("class", "ql-editor")] [.elem "p" [] [.text "Associate level."]]]]

def tplBody : Node :=
  .elem "body" [("class", "bg-white")] [
    .elem "img" [("alt", "Noor Latif"), ("src", "profile.png")] [],
    .elem "h1" [] [.text "Noor Latif"],
    .elem "p" [("style", "font-size:1.25rem;color:#334155")] [.text "Software Engineer"],
    tplContact, tplLinks, tplSkills, tplLanguages, tplSummary, tplExperience,
    tplEducation, tplProjects, tplCertifications,
    .elem "script" [("src", "inline.js")] []]

def canonicalTemplate : Node :=
  soupDoc [.elem "html" [("lang", "en")] [tplHead, tplBody]]

/-- The same template without the Languages section (its heading does
not occur anywhere). -/
def noLangTemplate : Node :=
  soupDoc [.elem "html" [("lang", "en")] [tplHead,
    .elem "body" [("class", "bg-white")] [
      .elem "img" [("alt", "Noor Latif"), ("src", "profile.png")] [],
      .elem "h1" [] [.text "Noor Latif"],
      .elem "p" [("style", "font-size:1.25rem;color:#334155")] [.text "Software Engineer"],
      tplContact, tplLinks, tplSkills, tplSummary, tplExperience,
      tplEducation, tplProjects, tplCertifications,
      .elem "script" [("src", "inline.js")] []]]]

/-- The document extracted from the canonical template. -/
def extractedDoc : Doc :=
  CVDataExtractor.extract canonicalTemplate

/-- The document extracted back from a render of the extracted
document into the same template. -/
def roundTripDoc : Doc :=
  CVDataExtractor.extract (CVRenderer.render canonicalTemplate extractedDoc)

/-- The extracted document with a replaced language list. -/
def alteredDoc : Doc :=
  { extractedDoc with languages := [⟨"Dutch", 80⟩] }

/-- A two-group skills region used to test the skills pass. -/
def skillsTwoGroupTpl : Node :=
  soupDoc [.elem "div" [] [
    skillGroupT "Technical Skills" ["Python"],
    skillGroupT "Soft Skills" ["Leadership"]]]

/-- A small gap-analysis session over two missing skills. -/
def demoSession : GapSession :=
  { skill_gaps := ["Docker", "Kubernetes"], answers := [], current_skill_index := 0 }

/-- A filled "has experience" form submission. -/
def demoForm : QForm :=
  { has_experience := some "yes", experience_level := some "intermediate"
    description := some " built images "
    related_experience := none }

/-- A parsed document of the usual shape. -/
def tplShape (hA hA2 bA : List (String × String)) (headNs bodyNs : List Node) : Node :=
  soupDoc [.elem "html" hA [.elem "head" hA2 headNs, .elem "body" bA bodyNs]]

/-- A node the renderer could select as a slot or section anchor:
everything any `find` of the ten passes initially searches for. -/
def relevantP (m : Node) : Bool :=
  m.tagIs "h1" || styledTitleP m || isDivClass "contact-item" m ||
    isDivClass "skill-group" m || m.tagIs "h2"

/-- Cleanliness of the head subtree: no profile slot, no contact item,
no skill group, no section heading anywhere among head nodes. -/
def headCleanL (headNs : List Node) : Prop :=
  ∀ m ∈ descList headNs, relevantP m = false

/-- A heading-anchored section of the canonical shape: the `h2` first,
then the existing entry nodes. -/
def sectionT (heading : String) (entries : List Node) : Node :=
  .elem "div" [("class", "space-y-3")] (.elem "h2" [] [.text heading] :: entries)

/-- A bullet `li` as the template carries it: the `ql-ui` span, then
plain text interleaved with two strong runs. -/
def bulletLiT (pre b1 mid b2 post : String) : Node :=
  .elem "li" [("data-list", "bullet")] [
    .elem "span" [("class", "ql-ui"), ("contenteditable", "false")] [],
    .text pre, .elem "strong" [] [.text b1], .text mid,
    .elem "strong" [] [.text b2], .text post]

/-- A minimal experience entry node holding one bold bullet. -/
def boldExpItemT (pre b1 mid b2 post : String) : Node :=
  .elem "div" [("class", "timeline-item")] [
    .elem "div" [("class", "ql-editor")] [
      .elem "ol" [] [bulletLiT pre b1 mid b2 post]]]

/-! ## Combinator lemmas -/

theorem descList_cons (n : Node) (t : List Node) :
    descList (n :: t) = n :: n.descendants ++ descList t := rfl

theorem descendants_elem (tg : String) (a : List (String × String)) (cs : List Node) :
    (Node.elem tg a cs).descendants = descList cs := rfl

mutual

theorem editFirst_skip (p : Node → Bool) (f : Node → Node) :
    ∀ n : Node, (∀ m ∈ n.descendants, p m = false) → editFirst p f n = (n, false)
  | .text _, _ => rfl
  | .elem tg a cs, h => by
    have hcs : ∀ m ∈ descList cs, p m = false := by
      simpa [descendants_elem] using h
    simp [editFirst, editFirstList_skip p f cs hcs]

theorem editFirstList_skip (p : Node → Bool) (f : Node → Node) :
    ∀ l : List Node, (∀ m ∈ descList l, p m = false) → editFirstList p f l = (l, false)
  | [], _ => rfl
  | n :: t, h => by
    have hn : p n = false := h n (by simp [descList_cons])
    have hd : ∀ m ∈ n.descendants, p m = false := fun m hm =>
      h m (by simp [descList_cons]; exact Or.inr (Or.inl hm))
    have ht : ∀ m ∈ descList t, p m = false := fun m hm =>
      h m (by simp [descList_cons]; exact Or.inr (Or.inr hm))
    simp [editFirstList, hn, editFirst_skip p f n hd, editFirstList_skip p f t ht]

end

mutual

theorem editMatches_skip (p : Node → Bool) (f : Nat → Node → Node) :
    ∀ (n : Node) (k : Nat), (∀ m ∈ n.descendants, p m = false) →
      editMatches p f k n = (n, k)
  | .text _, _, _ => rfl
  | .elem tg a cs, k, h => by
    have hcs : ∀ m ∈ descList cs, p m = false := by
      simpa [descendants_elem] using h
    simp [editMatches, editMatchesList_skip p f cs k hcs]

theorem editMatchesList_skip (p : Node → Bool) (f : Nat → Node → Node) :
    ∀ (l : List Node) (k : Nat), (∀ m ∈ descList l, p m = false) →
      editMatchesList p f k l = (l, k)
  | [], _, _ => rfl
  | n :: t, k, h => by
    have hn : p n = false := h n (by simp [descList_cons])
    have hd : ∀ m ∈ n.descendants, p m = false := fun m hm =>
      h m (by simp [descList_cons]; exact Or.inr (Or.inl hm))
    have ht : ∀ m ∈ descList t, p m = false := fun m hm =>
      h m (by simp [descList_cons]; exact Or.inr (Or.inr hm))
    simp [editMatchesList, hn, editMatches_skip p f n k hd,
      editMatchesList_skip p f t k ht]

end

mutual

theorem removeAll_skip (p : Node → Bool) :
    ∀ n : Node, (∀ m ∈ n.descendants, p m = false) → removeAll p n = n
  | .text _, _ => rfl
  | .elem tg a cs, h => by
    have hcs : ∀ m ∈ descList cs, p m = false := by
      simpa [descendants_elem] using h
    simp [removeAll, removeAllList_skip p cs hcs]

theorem removeAllList_skip (p : Node → Bool) :
    ∀ l : List Node, (∀ m ∈ descList l, p m = false) → removeAllList p l = l
  | [], _ => rfl
  | n :: t, h => by
    have hn : p n = false := h n (by simp [descList_cons])
    have hd : ∀ m ∈ n.descendants, p m = false := fun m hm =>
      h m (by simp [descList_cons]; exact Or.inr (Or.inl hm))
    have ht : ∀ m ∈ descList t, p m = false := fun m hm =>
      h m (by simp [descList_cons]; exact Or.inr (Or.inr hm))
    simp [removeAllList, hn, removeAll_skip p n hd, removeAllList_skip p t ht]

end

mutual

theorem editAncNode_skip (target anc : Node → Bool) (f : Node → Node) :
    ∀ n : Node, (∀ m ∈ n.descendants, target m = false) →
      editAncNode target anc f n = (n, .idle)
  | .text _, _ => rfl
  | .elem tg a cs, h => by
    have hcs : ∀ m ∈ descList cs, target m = false := by
      simpa [descendants_elem] using h
    simp [editAncNode, editAncList_skip target anc f cs hcs]

theorem editAncList_skip (target anc : Node → Bool) (f : Node → Node) :
    ∀ l : List Node, (∀ m ∈ descList l, target m = false) →
      editAncList target anc f l = (l, .idle)
  | [], _ => rfl
  | n :: t, h => by
    have hn : target n = false := h n (by simp [descList_cons])
    have hd : ∀ m ∈ n.descendants, target m = false := fun m hm =>
      h m (by simp [descList_cons]; exact Or.inr (Or.inl hm))
    have ht : ∀ m ∈ descList t, target m = false := fun m hm =>
      h m (by simp [descList_cons]; exact Or.inr (Or.inr hm))
    simp [editAncList, hn, editAncNode_skip target anc f n hd,
      editAncList_skip target anc f t ht]

end

theorem editSection_skip (target anc : Node → Bool) (f : Node → Node) (n : Node)
    (h : ∀ m ∈ n.descendants, target m = false) :
    editSection target anc f n = n := by
  simp [editSection, editAncNode_skip target anc f n h]

mutual

theorem editFirst_congr (p : Node → Bool) (f g : Node → Node)
    (hfg : ∀ n, f n = g n) :
    ∀ n : Node, editFirst p f n = editFirst p g n
  | .text _ => rfl
  | .elem tg a cs => by
    simp [editFirst, editFirstList_congr p f g hfg cs]

theorem editFirstList_congr (p : Node → Bool) (f g : Node → Node)
    (hfg : ∀ n, f n = g n) :
    ∀ l : List Node, editFirstList p f l = editFirstList p g l
  | [] => rfl
  | n :: t => by
    simp only [editFirstList, hfg, editFirst_congr p f g hfg n,
      editFirstList_congr p f g hfg t]

end

mutual

theorem editFirst_id (p : Node → Bool) :
    ∀ n : Node, (editFirst p (fun x => x) n).1 = n
  | .text _ => rfl
  | .elem tg a cs => by
    simp [editFirst, editFirstList_id p cs]

theorem editFirstList_id (p : Node → Bool) :
    ∀ l : List Node, (editFirstList p (fun x => x) l).1 = l
  | [] => rfl
  | n :: t => by
    by_cases hn : p n = true
    · simp [editFirstList, hn]
    · simp only [editFirstList, Bool.not_eq_true] at hn ⊢
      simp only [hn]
      cases hb : (editFirst p (fun x => x) n).2 <;>
        simp [hb, editFirst_id p n, editFirstList_id p t]

end

mutual

theorem editAncNode_congr (target anc : Node → Bool) (f g : Node → Node)
    (hfg : ∀ n, f n = g n) :
    ∀ n : Node, editAncNode target anc f n = editAncNode target anc g n
  | .text _ => rfl
  | .elem tg a cs => by
    simp only [editAncNode, editAncList_congr target anc f g hfg cs]
    cases (editAncList target anc g cs).2 <;> simp [hfg]

theorem editAncList_congr (target anc : Node → Bool) (f g : Node → Node)
    (hfg : ∀ n, f n = g n) :
    ∀ l : List Node, editAncList target anc f l = editAncList target anc g l
  | [] => rfl
  | n :: t => by
    simp only [editAncList, editAncNode_congr target anc f g hfg n,
      editAncList_congr target anc f g hfg t]

end

theorem editSection_congr (target anc : Node → Bool) (f g : Node → Node)
    (hfg : ∀ n, f n = g n) (root : Node) :
    editSection target anc f root = editSection target anc g root := by
  simp [editSection, editAncNode_congr target anc f g hfg root]

theorem appendChildren_nil (n : Node) : appendChildren [] n = n := by
  cases n <;> simp [appendChildren]

theorem appendIntoContainer_nil (s : Node) :
    CVRenderer.appendIntoContainer [] s = s := by
  unfold CVRenderer.appendIntoContainer
  by_cases h : (findFirst? (isDivClass "space-y-3") s).isSome
  · simp only [h, if_true]
    have h1 : editFirst (isDivClass "space-y-3") (appendChildren []) s
        = editFirst (isDivClass "space-y-3") (fun x => x) s :=
      editFirst_congr _ _ _ appendChildren_nil s
    rw [h1, editFirst_id]
  · simp only [h, if_false]
    exact appendChildren_nil s

/-! ## Frame lemmas for the html/head/body document shape -/

theorem editFirst_shape (p : Node → Bool) (f : Node → Node)
    (hA hA2 bA : List (String × String)) (headNs bodyNs : List Node)
    (hHtml : p (.elem "html" hA [.elem "head" hA2 headNs, .elem "body" bA bodyNs]) = false)
    (hHead : p (.elem "head" hA2 headNs) = false)
    (hBody : p (.elem "body" bA bodyNs) = false)
    (hIn : ∀ m ∈ descList headNs, p m = false) :
    editFirst p f (tplShape hA hA2 bA headNs bodyNs)
      = (tplShape hA hA2 bA headNs (editFirstList p f bodyNs).1,
         (editFirstList p f bodyNs).2) := by
  have hskip := editFirstList_skip p f headNs hIn
  cases hb : (editFirstList p f bodyNs).2 <;>
    simp [tplShape, soupDoc, editFirst, editFirstList, hHtml, hHead, hBody,
      hskip, hb]

theorem editMatches_shape (p : Node → Bool) (f : Nat → Node → Node) (k : Nat)
    (hA hA2 bA : List (String × String)) (headNs bodyNs : List Node)
    (hHtml : p (.elem "html" hA [.elem "head" hA2 headNs, .elem "body" bA bodyNs]) = false)
    (hHead : p (.elem "head" hA2 headNs) = false)
    (hBody : p (.elem "body" bA bodyNs) = false)
    (hIn : ∀ m ∈ descList headNs, p m = false) :
    editMatches p f k (tplShape hA hA2 bA headNs bodyNs)
      = (tplShape hA hA2 bA headNs (editMatchesList p f k bodyNs).1,
         (editMatchesList p f k bodyNs).2) := by
  have hskip := editMatchesList_skip p f headNs k hIn
  simp [tplShape, soupDoc, editMatches, editMatchesList, hHtml, hHead, hBody,
    hskip]

theorem editAncList_cons_notTarget (target anc : Node → Bool) (f : Node → Node)
    (n : Node) (t : List Node) (hn : target n = false) :
    editAncList target anc f (n :: t)
      = match (editAncNode target anc f n).2 with
        | .idle => ((editAncNode target anc f n).1 :: (editAncList target anc f t).1,
            (editAncList target anc f t).2)
        | st => ((editAncNode target anc f n).1 :: t, st) := by
  simp only [editAncList, hn, Bool.false_eq_true, if_false]

theorem editSection_shape (target anc : Node → Bool) (f : Node → Node)
    (hA hA2 bA : List (String × String)) (headNs bodyNs : List Node)
    (hHtml : target (.elem "html" hA [.elem "head" hA2 headNs, .elem "body" bA bodyNs]) = false)
    (hHead : target (.elem "head" hA2 headNs) = false)
    (hBody : target (.elem "body" bA bodyNs) = false)
    (hIn : ∀ m ∈ descList headNs, target m = false)
    (hAncHtml : anc (.elem "html" hA
      [.elem "head" hA2 headNs,
       .elem "body" bA (editAncList target anc f bodyNs).1]) = false)
    (hAncBody : anc (.elem "body" bA (editAncList target anc f bodyNs).1) = false)
    (hAncDoc : ∀ cs, anc (.elem "[document]" [] cs) = false) :
    editSection target anc f (tplShape hA hA2 bA headNs bodyNs)
      = tplShape hA hA2 bA headNs (editAncList target anc f bodyNs).1 := by
  have hskip := editAncNode_skip target anc f (.elem "head" hA2 headNs)
    (by simpa [descendants_elem] using hIn)
  have hbody : editAncNode target anc f (.elem "body" bA bodyNs)
      = (.elem "body" bA (editAncList target anc f bodyNs).1,
         (editAncList target anc f bodyNs).2) := by
    cases hst : (editAncList target anc f bodyNs).2 <;>
      simp only [editAncNode, hst, hAncBody, if_false, Bool.false_eq_true]
  have hlist2 : editAncList target anc f [.elem "body" bA bodyNs]
      = ([.elem "body" bA (editAncList target anc f bodyNs).1],
         (editAncList target anc f bodyNs).2) := by
    rw [editAncList_cons_notTarget target anc f _ _ hBody, hbody]
    cases hst : (editAncList target anc f bodyNs).2 <;>
      simp [hst, editAncList]
  have hlist1 : editAncList target anc f
      [.elem "head" hA2 headNs, .elem "body" bA bodyNs]
      = ([.elem "head" hA2 headNs,
          .elem "body" bA (editAncList target anc f bodyNs).1],
         (editAncList target anc f bodyNs).2) := by
    rw [editAncList_cons_notTarget target anc f _ _ hHead, hskip]
    simp [hlist2]
  have hhtml : editAncNode target anc f (.elem "html" hA
      [.elem "head" hA2 headNs, .elem "body" bA bodyNs])
      = (.elem "html" hA [.elem "head" hA2 headNs,
          .elem "body" bA (editAncList target anc f bodyNs).1],
         (editAncList target anc f bodyNs).2) := by
    cases hst : (editAncList target anc f bodyNs).2 <;>
      simp only [editAncNode, hlist1, hst, hAncHtml, if_false, Bool.false_eq_true]
  have hdoclist : editAncList target anc f [.elem "html" hA
      [.elem "head" hA2 headNs, .elem "body" bA bodyNs]]
      = ([.elem "html" hA [.elem "head" hA2 headNs,
          .elem "body" bA (editAncList target anc f bodyNs).1]],
         (editAncList target anc f bodyNs).2) := by
    rw [editAncList_cons_notTarget target anc f _ _ hHtml, hhtml]
    cases hst : (editAncList target anc f bodyNs).2 <;>
      simp [hst, editAncList]
  cases hst : (editAncList target anc f bodyNs).2 <;>
    simp only [tplShape, soupDoc, editSection, editAncNode, hdoclist, hst,
      hAncDoc, if_false, Bool.false_eq_true]

/-! ## Head invariance of the renderer -/

theorem relevant_parts {m : Node} (h : relevantP m = false) :
    m.tagIs "h1" = false ∧ styledTitleP m = false ∧
      isDivClass "contact-item" m = false ∧ isDivClass "skill-group" m = false ∧
      m.tagIs "h2" = false := by
  simp only [relevantP, Bool.or_eq_false_iff] at h
  exact ⟨h.1.1.1.1, h.1.1.1.2, h.1.1.2, h.1.2, h.2⟩

theorem isH2WithText_false {m : Node} (s : String) (h : m.tagIs "h2" = false) :
    isH2WithText s m = false := by
  simp [isH2WithText, h]

theorem contactItemWithA_false {m : Node} (h : isDivClass "contact-item" m = false) :
    CVRenderer.contactItemWithA m = false := by
  simp [CVRenderer.contactItemWithA, h]

theorem render_profile_shape (hA hA2 bA : List (String × String))
    (headNs : List Node) (hIn : headCleanL headNs) (profile : Profile) :
    ∀ bodyNs : List Node, ∃ bodyNs',
      CVRenderer.render_profile (tplShape hA hA2 bA headNs bodyNs) profile
        = tplShape hA hA2 bA headNs bodyNs' := by
  intro bodyNs
  have step1 : ∀ (v : String) (bNs : List Node), ∃ bNs',
      (editFirst (Node.tagIs "h1") (setString v) (tplShape hA hA2 bA headNs bNs)).1
        = tplShape hA hA2 bA headNs bNs' := by
    intro v bNs
    refine ⟨(editFirstList (Node.tagIs "h1") (setString v) bNs).1, ?_⟩
    rw [editFirst_shape (Node.tagIs "h1") (setString v) hA hA2 bA headNs bNs
      (by simp [Node.tagIs]) (by simp [Node.tagIs]) (by simp [Node.tagIs])
      (fun m hm => (relevant_parts (hIn m hm)).1)]
  have step2 : ∀ (v : String) (bNs : List Node), ∃ bNs',
      (editFirst styledTitleP (setString v) (tplShape hA hA2 bA headNs bNs)).1
        = tplShape hA hA2 bA headNs bNs' := by
    intro v bNs
    refine ⟨(editFirstList styledTitleP (setString v) bNs).1, ?_⟩
    rw [editFirst_shape styledTitleP (setString v) hA hA2 bA headNs bNs
      (by simp [styledTitleP, Node.tagIs]) (by simp [styledTitleP, Node.tagIs])
      (by simp [styledTitleP, Node.tagIs])
      (fun m hm => (relevant_parts (hIn m hm)).2.1)]
  unfold CVRenderer.render_profile
  cases hname : profile.name with
  | none =>
    cases htitle : profile.title with
    | none => exact ⟨bodyNs, rfl⟩
    | some v => simpa using step2 v bodyNs
  | some v =>
    obtain ⟨b1, h1⟩ := step1 v bodyNs
    cases htitle : profile.title with
    | none => exact ⟨b1, by simpa using h1⟩
    | some w =>
      obtain ⟨b2, h2⟩ := step2 w b1
      exact ⟨b2, by simp only [h1, h2]⟩

theorem render_contact_shape (hA hA2 bA : List (String × String))
    (headNs : List Node) (hIn : headCleanL headNs) (contact : Contact) :
    ∀ bodyNs : List Node, ∃ bodyNs',
      CVRenderer.render_contact (tplShape hA hA2 bA headNs bodyNs) contact
        = tplShape hA hA2 bA headNs bodyNs' := by
  intro bodyNs
  refine ⟨(editMatchesList (isDivClass "contact-item")
    (fun _ => CVRenderer.renderContactItem contact) 0 bodyNs).1, ?_⟩
  unfold CVRenderer.render_contact
  rw [editMatches_shape (isDivClass "contact-item") _ 0 hA hA2 bA headNs bodyNs
    (by simp [isDivClass, Node.tagIs]) (by simp [isDivClass, Node.tagIs])
    (by simp [isDivClass, Node.tagIs])
    (fun m hm => (relevant_parts (hIn m hm)).2.2.1)]

theorem render_links_shape (hA hA2 bA : List (String × String))
    (headNs : List Node) (hIn : headCleanL headNs) (links : List Link) :
    ∀ bodyNs : List Node, ∃ bodyNs',
      CVRenderer.render_links (tplShape hA hA2 bA headNs bodyNs) links
        = tplShape hA hA2 bA headNs bodyNs' := by
  intro bodyNs
  unfold CVRenderer.render_links
  by_cases hl : links.isEmpty
  · exact ⟨bodyNs, by simp [hl]⟩
  · refine ⟨(editAncList CVRenderer.contactItemWithA (isDivClass "space-y-2")
      (CVRenderer.renderLinksSection links) bodyNs).1, ?_⟩
    simp only [hl, Bool.false_eq_true, if_false]
    rw [editSection_shape CVRenderer.contactItemWithA (isDivClass "space-y-2") _
      hA hA2 bA headNs bodyNs
      (by simp [CVRenderer.contactItemWithA, isDivClass, Node.tagIs])
      (by simp [CVRenderer.contactItemWithA, isDivClass, Node.tagIs])
      (by simp [CVRenderer.contactItemWithA, isDivClass, Node.tagIs])
      (fun m hm => contactItemWithA_false (relevant_parts (hIn m hm)).2.2.1)
      (by simp [isDivClass, Node.tagIs]) (by simp [isDivClass, Node.tagIs])
      (fun cs => by simp [isDivClass, Node.tagIs])]

theorem render_skills_shape (hA hA2 bA : List (String × String))
    (headNs : List Node) (hIn : headCleanL headNs) (skills : List SkillGroup) :
    ∀ bodyNs : List Node, ∃ bodyNs',
      CVRenderer.render_skills (tplShape hA hA2 bA headNs bodyNs) skills
        = tplShape hA hA2 bA headNs bodyNs' := by
  intro bodyNs
  refine ⟨(editMatchesList (isDivClass "skill-group") (fun i group =>
    match skills.get? i with
    | some data => CVRenderer.updateSkillGroup data group
    | none => group) 0 bodyNs).1, ?_⟩
  unfold CVRenderer.render_skills
  rw [editMatches_shape (isDivClass "skill-group") (fun i group =>
    match skills.get? i with
    | some data => CVRenderer.updateSkillGroup data group
    | none => group) 0 hA hA2 bA headNs bodyNs
    (by simp [isDivClass, Node.tagIs]) (by simp [isDivClass, Node.tagIs])
    (by simp [isDivClass, Node.tagIs])
    (fun m hm => (relevant_parts (hIn m hm)).2.2.2.1)]

/-- Any of the six heading-anchored section passes keeps the shape. -/
theorem section_pass_shape (s : String) (f : Node → Node)
    (hA hA2 bA : List (String × String))
    (headNs : List Node) (hIn : headCleanL headNs) :
    ∀ bodyNs : List Node, ∃ bodyNs',
      editSection (isH2WithText s) (isDivClass "space-y-3") f
          (tplShape hA hA2 bA headNs bodyNs)
        = tplShape hA hA2 bA headNs bodyNs' := by
  intro bodyNs
  refine ⟨(editAncList (isH2WithText s) (isDivClass "space-y-3") f bodyNs).1, ?_⟩
  rw [editSection_shape (isH2WithText s) (isDivClass "space-y-3") f
    hA hA2 bA headNs bodyNs
    (by simp [isH2WithText, Node.tagIs]) (by simp [isH2WithText, Node.tagIs])
    (by simp [isH2WithText, Node.tagIs])
    (fun m hm => isH2WithText_false s (relevant_parts (hIn m hm)).2.2.2.2)
    (by simp [isDivClass, Node.tagIs]) (by simp [isDivClass, Node.tagIs])
    (fun cs => by simp [isDivClass, Node.tagIs])]

theorem render_summary_shape (hA hA2 bA : List (String × String))
    (headNs : List Node) (hIn : headCleanL headNs) (summary : String) :
    ∀ bodyNs : List Node, ∃ bodyNs',
      CVRenderer.render_summary (tplShape hA hA2 bA headNs bodyNs) summary
        = tplShape hA hA2 bA headNs bodyNs' := by
  intro bodyNs
  unfold CVRenderer.render_summary
  by_cases hs : summary == ""
  · exact ⟨bodyNs, by simp [hs]⟩
  · simp only [hs, Bool.false_eq_true, if_false]
    exact section_pass_shape "Professional Summary" _ hA hA2 bA headNs hIn bodyNs

theorem render_languages_shape (hA hA2 bA : List (String × String))
    (headNs : List Node) (hIn : headCleanL headNs) (languages : List LangEntry)
    (bodyNs : List Node) : ∃ bodyNs',
      CVRenderer.render_languages (tplShape hA hA2 bA headNs bodyNs) languages
        = tplShape hA hA2 bA headNs bodyNs' := by
  unfold CVRenderer.render_languages
  exact section_pass_shape "Languages" _ hA hA2 bA headNs hIn bodyNs

theorem render_experience_shape (hA hA2 bA : List (String × String))
    (headNs : List Node) (hIn : headCleanL headNs) (experience : List ExpEntry)
    (bodyNs : List Node) : ∃ bodyNs',
      CVRenderer.render_experience (tplShape hA hA2 bA headNs bodyNs) experience
        = tplShape hA hA2 bA headNs bodyNs' := by
  unfold CVRenderer.render_experience
  exact section_pass_shape "Work Experience" _ hA hA2 bA headNs hIn bodyNs

theorem render_education_shape (hA hA2 bA : List (String × String))
    (headNs : List Node) (hIn : headCleanL headNs) (education : List EduEntry)
    (bodyNs : List Node) : ∃ bodyNs',
      CVRenderer.render_education (tplShape hA hA2 bA headNs bodyNs) education
        = tplShape hA hA2 bA headNs bodyNs' := by
  unfold CVRenderer.render_education
  exact section_pass_shape "Education" _ hA hA2 bA headNs hIn bodyNs

theorem render_projects_shape (hA hA2 bA : List (String × String))
    (headNs : List Node) (hIn : headCleanL headNs) (projects : List ProjEntry)
    (bodyNs : List Node) : ∃ bodyNs',
      CVRenderer.render_projects (tplShape hA hA2 bA headNs bodyNs) projects
        = tplShape hA hA2 bA headNs bodyNs' := by
  unfold CVRenderer.render_projects
  exact section_pass_shape "Projects" _ hA hA2 bA headNs hIn bodyNs

theorem render_certifications_shape (hA hA2 bA : List (String × String))
    (headNs : List Node) (hIn : headCleanL headNs) (certifications : List CertEntry)
    (bodyNs : List Node) : ∃ bodyNs',
      CVRenderer.render_certifications (tplShape hA hA2 bA headNs bodyNs) certifications
        = tplShape hA hA2 bA headNs bodyNs' := by
  unfold CVRenderer.render_certifications
  exact section_pass_shape "Certifications" _ hA hA2 bA headNs hIn bodyNs

/-- The whole render pass keeps the head of a clean document intact:
it only rewrites below the body. -/
theorem render_head_invariant (hA hA2 bA : List (String × String))
    (headNs bodyNs : List Node) (d : Doc) (hIn : headCleanL headNs) :
    ∃ bodyNs', CVRenderer.render (tplShape hA hA2 bA headNs bodyNs) d
      = tplShape hA hA2 bA headNs bodyNs' := by
  simp only [CVRenderer.render]
  obtain ⟨b1, h1⟩ := render_profile_shape hA hA2 bA headNs hIn d.profile bodyNs
  rw [h1]
  obtain ⟨b2, h2⟩ := render_contact_shape hA hA2 bA headNs hIn d.contact b1
  rw [h2]
  obtain ⟨b3, h3⟩ := render_links_shape hA hA2 bA headNs hIn d.links b2
  rw [h3]
  obtain ⟨b4, h4⟩ := render_skills_shape hA hA2 bA headNs hIn d.skills b3
  rw [h4]
  obtain ⟨b5, h5⟩ := render_languages_shape hA hA2 bA headNs hIn d.languages b4
  rw [h5]
  obtain ⟨b6, h6⟩ := render_summary_shape hA hA2 bA headNs hIn d.summary b5
  rw [h6]
  obtain ⟨b7, h7⟩ := render_experience_shape hA hA2 bA headNs hIn d.experience b6
  rw [h7]
  obtain ⟨b8, h8⟩ := render_education_shape hA hA2 bA headNs hIn d.education b7
  rw [h8]
  obtain ⟨b9, h9⟩ := render_projects_shape hA hA2 bA headNs hIn d.projects b8
  rw [h9]
  obtain ⟨b10, h10⟩ := render_certifications_shape hA hA2 bA headNs hIn d.certifications b9
  rw [h10]
  exact ⟨b10, rfl⟩

/-! ## Parametric section families: rebuild and in-place semantics -/

theorem removeAllList_all (p : Node → Bool) :
    ∀ l : List Node, (∀ n ∈ l, p n = true) → removeAllList p l = []
  | [], _ => rfl
  | n :: t, h => by
    have hn : p n = true := h n (by simp)
    have ht : ∀ m ∈ t, p m = true := fun m hm => h m (by simp [hm])
    simp [removeAllList, hn, removeAllList_all p t ht]

theorem editMatchesList_all (p : Node → Bool) (f : Nat → Node → Node) :
    ∀ (l : List Node) (k : Nat), (∀ n ∈ l, p n = true) →
      editMatchesList p f k l
        = ((List.enumFrom k l).map (fun ig => f ig.1 ig.2), k + l.length)
  | [], k, _ => by simp [editMatchesList]
  | n :: t, k, h => by
    have hn : p n = true := h n (by simp)
    have ht : ∀ m ∈ t, p m = true := fun m hm => h m (by simp [hm])
    simp [editMatchesList, hn, editMatchesList_all p f t (k + 1) ht,
      List.enumFrom]
    omega

/-- Rebuild semantics of the delete-and-append section passes, for any
existing entries carrying the entry class: every one of them is
removed and exactly one fresh node per document entry is appended, in
document order. -/
theorem section_rebuild (heading : String) (entryClass : String)
    (mk : List Node) (entries : List Node)
    (hE : ∀ e ∈ entries, isDivClass entryClass e = true)
    (hH : isDivClass entryClass (.elem "h2" [] [.text heading]) = false)
    (hT : isH2WithText heading (.elem "h2" [] [.text heading]) = true) :
    editSection (isH2WithText heading) (isDivClass "space-y-3")
      (fun sec => CVRenderer.appendIntoContainer mk
        (removeAll (isDivClass entryClass) sec))
      (soupDoc [sectionT heading entries])
      = soupDoc [.elem "div" [("class", "space-y-3")]
          (.elem "h2" [] [.text heading] :: mk)] := by
  have hrm : removeAll (isDivClass entryClass) (sectionT heading entries)
      = .elem "div" [("class", "space-y-3")] [.elem "h2" [] [.text heading]] := by
    simp only [sectionT, removeAll, removeAllList, hH, Bool.false_eq_true,
      if_false, removeAllList_all _ entries hE]
    rfl
  have happ : CVRenderer.appendIntoContainer mk
      (.elem "div" [("class", "space-y-3")] [.elem "h2" [] [.text heading]])
      = .elem "div" [("class", "space-y-3")]
          (.elem "h2" [] [.text heading] :: mk) := by
    have hfind : (findFirst? (isDivClass "space-y-3")
        (Node.elem "div" [("class", "space-y-3")]
          [.elem "h2" [] [.text heading]])).isSome = false := rfl
    simp [CVRenderer.appendIntoContainer, hfind, appendChildren]
  have htgtsec : isH2WithText heading (sectionT heading entries) = false := rfl
  have hancsec : isDivClass "space-y-3" (sectionT heading entries) = true := rfl
  have hlist : editAncList (isH2WithText heading) (isDivClass "space-y-3")
      (fun sec => CVRenderer.appendIntoContainer mk
        (removeAll (isDivClass entryClass) sec))
      (Node.elem "h2" [] [.text heading] :: entries)
      = (Node.elem "h2" [] [.text heading] :: entries, .pending) := by
    simp only [editAncList, hT, if_true]
  have hsec : editAncNode (isH2WithText heading) (isDivClass "space-y-3")
      (fun sec => CVRenderer.appendIntoContainer mk
        (removeAll (isDivClass entryClass) sec))
      (sectionT heading entries)
      = (.elem "div" [("class", "space-y-3")]
          (.elem "h2" [] [.text heading] :: mk), .done) := by
    show (match (editAncList _ _ _ (Node.elem "h2" [] [.text heading] :: entries)).2 with
      | SecSt.pending => _
      | _ => _) = _
    rw [hlist]
    have hancsec2 : isDivClass "space-y-3"
        (Node.elem "div" [("class", "space-y-3")]
          (Node.elem "h2" [] [Node.text heading] :: entries)) = true := rfl
    have hrm2 : removeAll (isDivClass entryClass)
        (Node.elem "div" [("class", "space-y-3")]
          (Node.elem "h2" [] [Node.text heading] :: entries))
        = Node.elem "div" [("class", "space-y-3")]
            [Node.elem "h2" [] [Node.text heading]] := hrm
    simp [hancsec2, hrm2, happ, sectionT]
  have hdoc : editAncList (isH2WithText heading) (isDivClass "space-y-3")
      (fun sec => CVRenderer.appendIntoContainer mk
        (removeAll (isDivClass entryClass) sec))
      [sectionT heading entries]
      = ([.elem "div" [("class", "space-y-3")]
          (.elem "h2" [] [.text heading] :: mk)], .done) := by
    rw [editAncList_cons_notTarget _ _ _ _ _ htgtsec, hsec]
  simp [editSection, editAncNode, soupDoc, hdoc]

/-- In-place semantics of the skills pass over a wrapper of existing
skill groups: the i-th group is updated from the i-th document group
when it exists and kept as-is otherwise; no group node is removed or
appended. -/
theorem render_skills_inplace (wrapAttrs : List (String × String))
    (groups : List Node)
    (hG : ∀ g ∈ groups, isDivClass "skill-group" g = true)
    (hW : isDivClass "skill-group" (.elem "div" wrapAttrs groups) = false)
    (skills : List SkillGroup) :
    CVRenderer.render_skills (soupDoc [.elem "div" wrapAttrs groups]) skills
      = soupDoc [.elem "div" wrapAttrs ((List.enumFrom 0 groups).map (fun ig =>
          match skills.get? ig.1 with
          | some data => CVRenderer.updateSkillGroup data ig.2
          | none => ig.2))] := by
  have hl := editMatchesList_all (isDivClass "skill-group") (fun i group =>
    match skills.get? i with
    | some data => CVRenderer.updateSkillGroup data group
    | none => group) groups 0 hG
  simp only [List.get?_eq_getElem?] at hl
  simp [CVRenderer.render_skills, editMatches, editMatchesList, soupDoc, hW, hl]

/-- With an empty language list the pass still deletes every existing
entry node of the section (when its heading is present). -/
theorem render_languages_nil (t : Node) :
    CVRenderer.render_languages t []
      = editSection (isH2WithText "Languages") (isDivClass "space-y-3")
          (removeAll (isDivClass "space-y-1")) t := by
  unfold CVRenderer.render_languages
  exact editSection_congr _ _ _ _
    (fun n => appendIntoContainer_nil (removeAll (isDivClass "space-y-1") n)) t

theorem render_experience_nil (t : Node) :
    CVRenderer.render_experience t []
      = editSection (isH2WithText "Work Experience") (isDivClass "space-y-3")
          (removeAll (isDivClass "timeline-item")) t := by
  unfold CVRenderer.render_experience
  exact editSection_congr _ _ _ _
    (fun n => appendIntoContainer_nil (removeAll (isDivClass "timeline-item") n)) t

/-! ## Skill-merge lemmas -/

theorem findGroupIdx_lt (p : SkillGroup → Bool) :
    ∀ (l : List SkillGroup) (i : Nat),
      SkillAnalyzer.findGroupIdx p l = some i → i < l.length := by
  intro l
  induction l with
  | nil => intro i h; simp [SkillAnalyzer.findGroupIdx] at h
  | cons g t ih =>
    intro i h
    unfold SkillAnalyzer.findGroupIdx at h
    by_cases hg : p g = true
    · rw [if_pos hg] at h
      injection h with h2
      simp only [List.length_cons]
      omega
    · rw [if_neg hg] at h
      cases hj : SkillAnalyzer.findGroupIdx p t with
      | none => rw [hj] at h; simp at h
      | some j =>
        rw [hj] at h
        simp only [Option.map_some'] at h
        injection h with h2
        have := ih j hj
        simp only [List.length_cons]
        omega

theorem selectTargetIdx_lt (skills : List SkillGroup) (cat : String) (i : Nat)
    (h : SkillAnalyzer.selectTargetIdx skills cat = some i) : i < skills.length := by
  unfold SkillAnalyzer.selectTargetIdx at h
  cases h1 : SkillAnalyzer.findGroupIdx
      (fun g => pyIn (pyLower cat) (pyLower g.category)) skills with
  | some j =>
    rw [h1] at h
    cases h
    exact findGroupIdx_lt _ skills i h1
  | none =>
    rw [h1] at h
    cases h2 : SkillAnalyzer.findGroupIdx
        (fun g => pyIn "technical" (pyLower g.category)) skills with
    | some j =>
      rw [h2] at h
      cases h
      exact findGroupIdx_lt _ skills i h2
    | none =>
      rw [h2] at h
      cases he : skills.isEmpty with
      | true => simp [he] at h
      | false =>
        simp only [he, Bool.false_eq_true, if_false, Option.some_inj] at h
        subst h
        cases skills with
        | nil => simp [List.isEmpty] at he
        | cons a t => simp

theorem updateGroupAt_get (f : SkillGroup → SkillGroup) :
    ∀ (l : List SkillGroup) (i : Nat),
      (SkillAnalyzer.updateGroupAt f i l).get? i = (l.get? i).map f
  | [], i => by cases i <;> simp [SkillAnalyzer.updateGroupAt]
  | g :: t, 0 => by simp [SkillAnalyzer.updateGroupAt]
  | g :: t, i + 1 => by
    have ih := updateGroupAt_get f t i
    simpa [SkillAnalyzer.updateGroupAt] using ih

theorem mergeItems_single (items : List String) (s : String)
    (hns : pyStrip s ≠ "") (hmem : pyStrip s ∉ items) :
    SkillAnalyzer.mergeItems items [s] = items ++ [pyStrip s] := by
  simp [SkillAnalyzer.mergeItems, hns, hmem]

theorem mergeItems_dup (items : List String) (s : String)
    (hns : pyStrip s ≠ "") (hmem : pyStrip s ∉ items) :
    SkillAnalyzer.mergeItems items [s, s] = items ++ [pyStrip s, pyStrip s] := by
  simp [SkillAnalyzer.mergeItems, hns, hmem]

theorem findGroupIdx_bind_get (p : SkillGroup → Bool) :
    ∀ l : List SkillGroup,
      (SkillAnalyzer.findGroupIdx p l).bind l.get? = l.find? p
  | [] => rfl
  | g :: t => by
    by_cases hg : p g = true
    · simp [SkillAnalyzer.findGroupIdx, List.find?, hg]
    · simp only [SkillAnalyzer.findGroupIdx, hg, Bool.false_eq_true, if_false,
        List.find?]
      rw [← findGroupIdx_bind_get p t]
      cases SkillAnalyzer.findGroupIdx p t <;> simp

/-! ## Gap-session lemmas -/

theorem dictGet?_dictInsert (k : String) (v : Answer) :
    ∀ d : List (String × Answer), dictGet? k (dictInsert k v d) = some v
  | [] => by simp [dictInsert, dictGet?]
  | (k0, v0) :: t => by
    by_cases hk : k0 = k
    · simp [dictInsert, dictGet?, hk]
    · simp [dictInsert, dictGet?, hk, dictGet?_dictInsert k v t]

theorem dictGet?_dictInsert_ne (k k' : String) (v : Answer) (hne : k' ≠ k) :
    ∀ d : List (String × Answer), dictGet? k' (dictInsert k v d) = dictGet? k' d
  | [] => by simp [dictInsert, dictGet?, Ne.symm hne]
  | (k0, v0) :: t => by
    by_cases hk : k0 = k
    · subst hk
      simp only [dictInsert, if_pos rfl, dictGet?]
      rw [if_neg (Ne.symm hne), if_neg (Ne.symm hne)]
    · simp [dictInsert, dictGet?, hk, dictGet?_dictInsert_ne k k' v hne t]

/-! ## Fence stripping never raises -/

theorem pySplitAux_len_pos (sep : List Char) :
    ∀ (fuel : Nat) (acc l : List Char), 1 ≤ (pySplitAux sep fuel acc l).length
  | 0, _, _ => by simp [pySplitAux]
  | _ + 1, _, [] => by simp [pySplitAux]
  | fuel + 1, acc, c :: cs => by
    unfold pySplitAux
    cases dropPref? sep (c :: cs) with
    | some rest => simp
    | none => simpa using pySplitAux_len_pos sep fuel (c :: acc) cs

theorem dropPref?_isSome_of_isPrefixOf :
    ∀ (sep l : List Char), sep.isPrefixOf l = true → (dropPref? sep l).isSome
  | [], l, _ => by simp [dropPref?]
  | s :: ss, [], h => by simp [List.isPrefixOf] at h
  | s :: ss, c :: cs, h => by
    simp only [List.isPrefixOf, Bool.and_eq_true, beq_iff_eq] at h
    simp only [dropPref?, h.1, if_pos]
    exact dropPref?_isSome_of_isPrefixOf ss cs h.2

theorem pySplitAux_len_two (sep : List Char) (hsep : sep ≠ []) :
    ∀ (fuel : Nat) (l acc : List Char), l.length < fuel →
      pyInList sep l = true → 2 ≤ (pySplitAux sep fuel acc l).length := by
  intro fuel
  induction fuel with
  | zero => intro l acc h; omega
  | succ fuel ih =>
    intro l acc hlen hin
    cases l with
    | nil =>
      simp [pyInList, List.isEmpty_iff] at hin
      exact absurd hin hsep
    | cons c cs =>
      unfold pySplitAux
      cases hdp : dropPref? sep (c :: cs) with
      | some rest =>
        have := pySplitAux_len_pos sep fuel [] rest
        simp only [List.length_cons]
        omega
      | none =>
        simp only [pyInList, Bool.or_eq_true] at hin
        cases hin with
        | inl hpre =>
          have := dropPref?_isSome_of_isPrefixOf sep (c :: cs) hpre
          rw [hdp] at this
          simp at this
        | inr htail =>
          have hlt : cs.length < fuel := by
            simp only [List.length_cons] at hlen
            omega
          exact ih cs (c :: acc) hlt htail

theorem pySplit_get?_one (s sep : String) (hsep : sep.data ≠ [])
    (h : pyIn sep s = true) : ((pySplit s sep).get? 1).isSome := by
  have h2 : 2 ≤ (pySplitAux sep.data (s.data.length + 1) [] s.data).length :=
    pySplitAux_len_two sep.data hsep (s.data.length + 1) s.data []
      (by omega) h
  have hlen : 2 ≤ (pySplit s sep).length := by
    simpa [pySplit] using h2
  cases hg : (pySplit s sep).get? 1 with
  | some v => simp
  | none =>
    have := List.get?_eq_none.mp hg
    omega

/-- The index accesses of the fence stripping are guarded by the
membership tests, so the stripping always succeeds (no `IndexError`). -/
theorem stripFences_isSome (r : String) : (AIClient.stripFences r).isSome := by
  unfold AIClient.stripFences
  by_cases h1 : pyIn "```json" (pyStrip r) = true
  · simp only [h1, if_pos]
    have := pySplit_get?_one (pyStrip r) "```json" (by decide) h1
    cases hg : (pySplit (pyStrip r) "```json").get? 1 with
    | some v => simp
    | none => rw [hg] at this; simp at this
  · simp only [h1]
    by_cases h2 : pyIn "```" (pyStrip r) = true
    · simp only [h2, if_pos, Bool.false_eq_true, if_false]
      have := pySplit_get?_one (pyStrip r) "```" (by decide) h2
      cases hg : (pySplit (pyStrip r) "```").get? 1 with
      | some v => simp
      | none => rw [hg] at this; simp at this
    · simp [h1, h2]

/-! ## Claims -/

/-- C4, counterexample: with `["Python"]` present, merging
`["Go", "Go"]` into the Technical Skills category appends `"Go"`
twice — the item count rises by 2, not by 1 as the claim states,
because the duplicate check is only made against the pre-call item
set. -/
theorem claim_C4_counterexample :
    SkillAnalyzer.add_skills_merge [⟨"Technical Skills", ["Python"]⟩]
        ["Go", "Go"] "Technical Skills"
      = [⟨"Technical Skills", ["Python", "Go", "Go"]⟩] ∧
    ¬ ((SkillAnalyzer.add_skills_merge [⟨"Technical Skills", ["Python"]⟩]
        ["Go", "Go"] "Technical Skills").map (fun g => g.items.length) = [2]) := by
  decide

/-- C4, amended: merging a single new skill `s` (nonempty once
stripped, not an exact-match member of the chosen category) grows that
category by exactly 1, and merging `[s, s]` in one call grows it by
exactly 2 — in-call duplicates are only checked against the items
present before the call. -/
theorem claim_C4_amended (skills : List SkillGroup) (cat : String) (i : Nat)
    (g : SkillGroup) (s : String)
    (hsel : SkillAnalyzer.selectTargetIdx skills cat = some i)
    (hget : skills.get? i = some g)
    (hns : pyStrip s ≠ "") (hmem : pyStrip s ∉ g.items) :
    ((SkillAnalyzer.add_skills_merge skills [s] cat).get? i).map
        (fun h => h.items.length) = some (g.items.length + 1) ∧
    ((SkillAnalyzer.add_skills_merge skills [s, s] cat).get? i).map
        (fun h => h.items.length) = some (g.items.length + 2) := by
  unfold SkillAnalyzer.add_skills_merge
  rw [hsel]
  constructor
  · rw [updateGroupAt_get, hget]
    simp [mergeItems_single g.items s hns hmem]
  · rw [updateGroupAt_get, hget]
    simp [mergeItems_dup g.items s hns hmem]

theorem claim_C4_witness :
    ((SkillAnalyzer.add_skills_merge [⟨"Technical Skills", ["Python"]⟩]
        ["Go"] "Technical Skills").get? 0).map (fun h => h.items.length)
      = some (["Python"].length + 1) ∧
    ((SkillAnalyzer.add_skills_merge [⟨"Technical Skills", ["Python"]⟩]
        ["Go", "Go"] "Technical Skills").get? 0).map (fun h => h.items.length)
      = some (["Python"].length + 2) :=
  claim_C4_amended [⟨"Technical Skills", ["Python"]⟩] "Technical Skills" 0
    ⟨"Technical Skills", ["Python"]⟩ "Go" (by decide) (by decide) (by decide)
    (by decide)

/-- C9: the chosen group is the first whose name contains the
preferred category case-insensitively, else the first whose name
contains "technical", else the head of the sequence (the spec-side
`chooseCategorySpec` states exactly this priority), and with no
categories the merge is a no-op. -/
theorem claim_C9_selection_order :
    (∀ (skills : List SkillGroup) (preferred : String),
      (SkillAnalyzer.selectTargetIdx skills preferred).bind skills.get?
        = SkillAnalyzer.chooseCategorySpec skills preferred) ∧
    (∀ (new_skills : List String) (preferred : String),
      SkillAnalyzer.add_skills_merge [] new_skills preferred = []) := by
  constructor
  · intro skills preferred
    unfold SkillAnalyzer.selectTargetIdx SkillAnalyzer.chooseCategorySpec
    rw [← findGroupIdx_bind_get, ← findGroupIdx_bind_get]
    cases h1 : SkillAnalyzer.findGroupIdx
        (fun g => pyIn (pyLower preferred) (pyLower g.category)) skills with
    | some i =>
      have hlt := findGroupIdx_lt _ skills i h1
      cases hg : skills.get? i with
      | none =>
        have := List.get?_eq_none.mp hg
        omega
      | some g =>
        rw [List.get?_eq_getElem?] at hg
        simp [hg]
    | none =>
      simp only [Option.none_bind]
      cases h2 : SkillAnalyzer.findGroupIdx
          (fun g => pyIn "technical" (pyLower g.category)) skills with
      | some i =>
        have hlt := findGroupIdx_lt _ skills i h2
        cases hg : skills.get? i with
        | none =>
          have := List.get?_eq_none.mp hg
          omega
        | some g =>
          rw [List.get?_eq_getElem?] at hg
          simp [hg]
      | none =>
        simp only [Option.none_bind]
        cases skills with
        | nil => simp
        | cons a t => simp [List.isEmpty]
  · intro new_skills preferred
    rfl

/-- C6: when the model response, once stripped of an optional fenced
code block, is not valid JSON, the tailoring tail returns the input
CV HTML untouched with only a warning; and the operation is total (no
exception path, the guarded index accesses always succeed). -/
theorem claim_C6_invalid_json_fallback :
    (∀ (response cv_html stripped : String) (template : Node),
      AIClient.stripFences response = some stripped →
      AIClient.json_loads? stripped = none →
      AIClient.tailor_cv response cv_html template
        = some ⟨.fallback cv_html, true⟩) ∧
    (∀ (response cv_html : String) (template : Node),
      (AIClient.tailor_cv response cv_html template).isSome) := by
  constructor
  · intro response cv_html stripped template h1 h2
    unfold AIClient.tailor_cv
    rw [h1]
    simp [h2]
  · intro response cv_html template
    unfold AIClient.tailor_cv
    have h := stripFences_isSome response
    cases hs : AIClient.stripFences response with
    | some v => simp
    | none => rw [hs] at h; simp at h

theorem claim_C6_witness :
    AIClient.tailor_cv "```json\nnot json\n```" "<div>cv</div>" (soupDoc [])
      = some ⟨.fallback "<div>cv</div>", true⟩ :=
  claim_C6_invalid_json_fallback.1 "```json\nnot json\n```" "<div>cv</div>"
    "not json" (soupDoc []) rfl rfl

/-- C7: answering at skill index i stores the answer under the skill
name (overwriting any prior answer for it, leaving others untouched)
and moves to index i+1 when i+1 < N, to finalize when i+1 = N; the
previous action from i > 0 moves to i-1 and changes nothing else. -/
theorem claim_C7_session_transitions (s : GapSession) (form : QForm)
    (skill : String)
    (hget : s.skill_gaps.get? s.current_skill_index = some skill) :
    (∃ s' page, questions_post s form = some (s', page) ∧
      s'.skill_gaps = s.skill_gaps ∧
      dictGet? skill s'.answers = some (answerOfForm form) ∧
      (∀ k, k ≠ skill → dictGet? k s'.answers = dictGet? k s.answers) ∧
      (s.current_skill_index + 1 < s.skill_gaps.length →
        page = QPage.asking ∧
        s'.current_skill_index = s.current_skill_index + 1) ∧
      (s.current_skill_index + 1 = s.skill_gaps.length →
        page = QPage.finalizing)) ∧
    (0 < s.current_skill_index →
      questions_previous s
        = { s with current_skill_index := s.current_skill_index - 1 }) := by
  have hiN : s.current_skill_index < s.skill_gaps.length := by
    by_contra hc
    rw [List.get?_eq_none.mpr (by omega)] at hget
    exact Option.noConfusion hget
  constructor
  · have hstep : questions_post s form
        = (if s.current_skill_index < s.skill_gaps.length - 1 then
            some (⟨s.skill_gaps,
              dictInsert skill (answerOfForm form) s.answers,
              s.current_skill_index + 1⟩, QPage.asking)
          else
            some ({ s with
              answers := dictInsert skill (answerOfForm form) s.answers },
              QPage.finalizing)) := by
      unfold questions_post
      rw [hget]
    rw [hstep]
    by_cases hlt : s.current_skill_index < s.skill_gaps.length - 1
    · rw [if_pos hlt]
      refine ⟨_, _, rfl, rfl, dictGet?_dictInsert skill (answerOfForm form) s.answers,
        fun k hk => dictGet?_dictInsert_ne skill k (answerOfForm form) hk s.answers,
        fun _ => ⟨rfl, rfl⟩, fun heq => absurd heq (by omega)⟩
    · rw [if_neg hlt]
      refine ⟨_, _, rfl, rfl, dictGet?_dictInsert skill (answerOfForm form) s.answers,
        fun k hk => dictGet?_dictInsert_ne skill k (answerOfForm form) hk s.answers,
        fun hl => absurd hl (by omega), fun _ => rfl⟩
  · intro hpos
    unfold questions_previous
    rw [if_pos hpos]

theorem claim_C7_witness :
    (∃ s' page, questions_post demoSession demoForm = some (s', page) ∧
      s'.skill_gaps = demoSession.skill_gaps ∧
      dictGet? "Docker" s'.answers = some (answerOfForm demoForm) ∧
      (∀ k, k ≠ "Docker" →
        dictGet? k s'.answers = dictGet? k demoSession.answers) ∧
      (demoSession.current_skill_index + 1 < demoSession.skill_gaps.length →
        page = QPage.asking ∧
        s'.current_skill_index = demoSession.current_skill_index + 1) ∧
      (demoSession.current_skill_index + 1 = demoSession.skill_gaps.length →
        page = QPage.finalizing)) ∧
    (0 < demoSession.current_skill_index →
      questions_previous demoSession
        = { demoSession with
            current_skill_index := demoSession.current_skill_index - 1 }) :=
  claim_C7_session_transitions demoSession demoForm "Docker" (by decide)

/-- C10: empty-field asymmetry of the renderer.  An empty language or
experience list still runs the delete pass over the section (shown
both as the general equation with the pure removal pass and on the
canonical template, where both existing language entries disappear),
while an empty summary string and a profile without name/title keys
leave the template untouched. -/
theorem claim_C10_empty_asymmetry :
    (∀ t : Node, CVRenderer.render_languages t []
      = editSection (isH2WithText "Languages") (isDivClass "space-y-3")
          (removeAll (isDivClass "space-y-1")) t) ∧
    (∀ t : Node, CVRenderer.render_experience t []
      = editSection (isH2WithText "Work Experience") (isDivClass "space-y-3")
          (removeAll (isDivClass "timeline-item")) t) ∧
    (findAll (isDivClass "space-y-1") canonicalTemplate).length = 2 ∧
    (findAll (isDivClass "space-y-1")
      (CVRenderer.render_languages canonicalTemplate [])).length = 0 ∧
    (findAll (isDivClass "timeline-item") canonicalTemplate).length = 4 ∧
    (findAll (isDivClass "timeline-item")
      (CVRenderer.render_experience canonicalTemplate [])).length = 3 ∧
    (∀ t : Node, CVRenderer.render_summary t "" = t) ∧
    (∀ t : Node, CVRenderer.render_profile t ⟨none, none, none⟩ = t) := by
  refine ⟨render_languages_nil, render_experience_nil, by decide, by decide,
    by decide, by decide, fun t => rfl, fun t => rfl⟩

/-- C5: a template with no "Languages" heading makes the language pass
the identity — nothing is inserted, nothing raised, the document's
language data is simply dropped: the full render of such a template
does not depend on the language list at all. -/
theorem claim_C5_missing_section_skip :
    (∀ (t : Node) (languages : List LangEntry),
      (∀ m ∈ t.descendants, isH2WithText "Languages" m = false) →
      CVRenderer.render_languages t languages = t) ∧
    CVRenderer.render noLangTemplate extractedDoc
      = CVRenderer.render noLangTemplate { extractedDoc with languages := [] } := by
  constructor
  · intro t langs h
    unfold CVRenderer.render_languages
    exact editSection_skip _ _ _ t h
  · rfl

theorem claim_C5_witness :
    CVRenderer.render_languages noLangTemplate [⟨"Dutch", 80⟩] = noLangTemplate :=
  claim_C5_missing_section_skip.1 noLangTemplate [⟨"Dutch", 80⟩] (by decide)

/-- C2, counterexample: rendering one document skill group into a
template with two skill groups leaves two group nodes in the section
(the second keeps its old markup), not one node per document entry as
the claim states for the skills section. -/
theorem claim_C2_counterexample :
    (findAll (isDivClass "skill-group")
      (CVRenderer.render_skills skillsTwoGroupTpl
        [⟨"All Skills", ["Go"]⟩])).length = 2 ∧
    ¬ ((findAll (isDivClass "skill-group")
      (CVRenderer.render_skills skillsTwoGroupTpl
        [⟨"All Skills", ["Go"]⟩])).length = 1) := by
  decide

/-- C2, amended: experience, education, projects, certifications and
languages are rendered by deleting every existing entry node and
appending one freshly built node per document entry in order (shown
for languages and experience over any existing entries); the skills
section instead updates the i-th existing group in place for
i < min(#template groups, #document groups) — rebuilding only the tags
inside it — leaving surplus template groups untouched and dropping
surplus document groups. -/
theorem claim_C2_amended :
    (∀ entries : List Node, (∀ e ∈ entries, isDivClass "space-y-1" e = true) →
      ∀ L : List LangEntry,
        CVRenderer.render_languages (soupDoc [sectionT "Languages" entries]) L
          = soupDoc [.elem "div" [("class", "space-y-3")]
              (.elem "h2" [] [.text "Languages"]
                :: L.map CVRenderer.mkLangItem)]) ∧
    (∀ entries : List Node, (∀ e ∈ entries, isDivClass "timeline-item" e = true) →
      ∀ E : List ExpEntry,
        CVRenderer.render_experience
            (soupDoc [sectionT "Work Experience" entries]) E
          = soupDoc [.elem "div" [("class", "space-y-3")]
              (.elem "h2" [] [.text "Work Experience"]
                :: E.map CVRenderer.mkExpItem)]) ∧
    (∀ (wrapAttrs : List (String × String)) (groups : List Node),
      (∀ g ∈ groups, isDivClass "skill-group" g = true) →
      isDivClass "skill-group" (.elem "div" wrapAttrs groups) = false →
      ∀ skills : List SkillGroup,
        CVRenderer.render_skills (soupDoc [.elem "div" wrapAttrs groups]) skills
          = soupDoc [.elem "div" wrapAttrs
              ((List.enumFrom 0 groups).map (fun ig =>
                match skills.get? ig.1 with
                | some data => CVRenderer.updateSkillGroup data ig.2
                | none => ig.2))]) := by
  refine ⟨?_, ?_, ?_⟩
  · intro entries hE L
    unfold CVRenderer.render_languages
    exact section_rebuild "Languages" "space-y-1"
      (L.map CVRenderer.mkLangItem) entries hE (by decide) (by decide)
  · intro entries hE E
    unfold CVRenderer.render_experience
    exact section_rebuild "Work Experience" "timeline-item"
      (E.map CVRenderer.mkExpItem) entries hE (by decide) (by decide)
  · intro wrapAttrs groups hG hW skills
    exact render_skills_inplace wrapAttrs groups hG hW skills

theorem claim_C2_witness :
    CVRenderer.render_languages
        (soupDoc [sectionT "Languages" [langItemT "Swedish" "100",
          langItemT "English" "90"]]) [⟨"Dutch", 80⟩]
      = soupDoc [.elem "div" [("class", "space-y-3")]
          (.elem "h2" [] [.text "Languages"]
            :: [LangEntry.mk "Dutch" 80].map CVRenderer.mkLangItem)] :=
  claim_C2_amended.1 [langItemT "Swedish" "100", langItemT "English" "90"]
    (by decide) [⟨"Dutch", 80⟩]

/-- C3, counterexample: a bullet node whose contents are the claim's
own "A **B** C **D** E" split into plain text and two strong runs
extracts to "A B C D E" — `get_text().strip()` flattens the strong
children and no `**` markers are reconstructed for bullet points,
refuting the claim for bullet-point nodes. -/
theorem claim_C3_counterexample :
    (CVDataExtractor.extractExpItem (boldExpItemT "A " "B" " C " "D" " E")).bullets
      = some ["A B C D E"] ∧
    ¬ ((CVDataExtractor.extractExpItem (boldExpItemT "A " "B" " C " "D" " E")).bullets
      = some ["A **B** C **D** E"]) := by
  decide

/-- C3, amended: bold-run reconstruction holds for summary paragraph
nodes only.  There, extraction rebuilds one string in order with each
run fenced by its own `**` pair and the other text kept as-is (modulo
the final whitespace strip): shown for two runs with arbitrary
surrounding text (start/end cases are the empty instances) and for
adjacent runs with no separating text, which are never merged; the
concrete string "A **B** C **D** E", rendered into the summary slot
and re-extracted, comes back exactly.  Bullet-point extraction does
not reconstruct bold runs: the li is flattened with `get_text`, so
strong children contribute only their bare text (the final conjunct,
over arbitrary interleaved text and runs). -/
theorem claim_C3_bold_runs :
    (∀ (attrs : List (String × String)) (pre b1 mid b2 post : String),
      CVDataExtractor.extractPara (.elem "p" attrs
        [.text pre, .elem "strong" [] [.text b1], .text mid,
         .elem "strong" [] [.text b2], .text post])
        = pyStrip (pre ++ ("**" ++ b1 ++ "**") ++ mid
            ++ ("**" ++ b2 ++ "**") ++ post)) ∧
    (∀ (attrs : List (String × String)) (a b : String),
      CVDataExtractor.extractPara (.elem "p" attrs
        [.elem "strong" [] [.text a], .elem "strong" [] [.text b]])
        = pyStrip (("**" ++ a ++ "**") ++ ("**" ++ b ++ "**"))) ∧
    CVDataExtractor.extract_summary (CVRenderer.render_summary
        (soupDoc [tplSummary]) "A **B** C **D** E") = "A **B** C **D** E" ∧
    (∀ pre b1 mid b2 post : String,
      (CVDataExtractor.extractExpItem (boldExpItemT pre b1 mid b2 post)).bullets
        = some (if pyStrip (pre ++ b1 ++ mid ++ b2 ++ post) = "" then []
            else [pyStrip (pre ++ b1 ++ mid ++ b2 ++ post)])) := by
  refine ⟨?_, ?_, by decide, ?_⟩
  · intro attrs pre b1 mid b2 post
    have hne : (findAll (Node.tagIs "strong") (Node.elem "p" attrs
        [.text pre, .elem "strong" [] [.text b1], .text mid,
         .elem "strong" [] [.text b2], .text post])).isEmpty = false := rfl
    unfold CVDataExtractor.extractPara
    rw [hne]
    simp only [Bool.false_eq_true, if_false]
    refine congrArg pyStrip (String.ext ?_)
    simp [String.join, CVDataExtractor.partToStr, Node.children,
      Node.getText, getTextList, String.data_append]
  · intro attrs a b
    have hne : (findAll (Node.tagIs "strong") (Node.elem "p" attrs
        [.elem "strong" [] [.text a], .elem "strong" [] [.text b]])).isEmpty
        = false := rfl
    unfold CVDataExtractor.extractPara
    rw [hne]
    simp only [Bool.false_eq_true, if_false]
    refine congrArg pyStrip (String.ext ?_)
    simp [String.join, CVDataExtractor.partToStr, Node.children,
      Node.getText, getTextList, String.data_append]
  · intro pre b1 mid b2 post
    have hg : getTextStrip (bulletLiT pre b1 mid b2 post)
        = pyStrip (pre ++ b1 ++ mid ++ b2 ++ post) := by
      unfold getTextStrip bulletLiT
      refine congrArg pyStrip (String.ext ?_)
      simp [Node.getText, getTextList, String.data_append]
    have hrec : CVDataExtractor.extractExpItem (boldExpItemT pre b1 mid b2 post)
        = ⟨none, none, none, none, some [],
           some (List.filterMap (fun b =>
             let t := getTextStrip b
             if t ≠ "" then some t else none) [bulletLiT pre b1 mid b2 post]),
           none⟩ := rfl
    rw [hrec]
    by_cases hc : pyStrip (pre ++ b1 ++ mid ++ b2 ++ post) = ""
    · simp [List.filterMap_cons, List.filterMap_nil, hg, hc]
    · simp [List.filterMap_cons, List.filterMap_nil, hg, hc]

/-- C8: the renderer never rewrites markup outside the known content
regions.  For any document of the standard html/head/body shape whose
head holds none of the slots or headings the passes search for, a full
render leaves the head (markup and attributes) verbatim and only
rewrites below the body; on the canonical template a full render
preserves every script, link and meta tag and the section styling
classes. -/
theorem claim_C8_frame :
    (∀ (hA hA2 bA : List (String × String)) (headNs bodyNs : List Node) (d : Doc),
      headCleanL headNs →
      ∃ bodyNs', CVRenderer.render (tplShape hA hA2 bA headNs bodyNs) d
        = tplShape hA hA2 bA headNs bodyNs') ∧
    findAll (Node.tagIs "script") (CVRenderer.render canonicalTemplate alteredDoc)
      = findAll (Node.tagIs "script") canonicalTemplate ∧
    findAll (Node.tagIs "link") (CVRenderer.render canonicalTemplate alteredDoc)
      = findAll (Node.tagIs "link") canonicalTemplate ∧
    findAll (Node.tagIs "meta") (CVRenderer.render canonicalTemplate alteredDoc)
      = findAll (Node.tagIs "meta") canonicalTemplate ∧
    (findAll (isDivClass "space-y-3")
        (CVRenderer.render canonicalTemplate alteredDoc)).length
      = (findAll (isDivClass "space-y-3") canonicalTemplate).length := by
  exact ⟨fun hA hA2 bA headNs bodyNs d hIn =>
    render_head_invariant hA hA2 bA headNs bodyNs d hIn, rfl, rfl, rfl, rfl⟩

theorem claim_C8_witness :
    ∃ bodyNs', CVRenderer.render
        (tplShape [("lang", "en")] [("data-x", "1")] [("class", "bg-white")]
          [Node.elem "title" [] [.text "CV"],
           Node.elem "link" [("rel", "stylesheet"), ("href", "style.css")] []]
          [Node.elem "h1" [] [.text "Someone"]]) extractedDoc
      = tplShape [("lang", "en")] [("data-x", "1")] [("class", "bg-white")]
          [Node.elem "title" [] [.text "CV"],
           Node.elem "link" [("rel", "stylesheet"), ("href", "style.css")] []]
          bodyNs' :=
  claim_C8_frame.1 [("lang", "en")] [("data-x", "1")] [("class", "bg-white")]
    [Node.elem "title" [] [.text "CV"],
     Node.elem "link" [("rel", "stylesheet"), ("href", "style.css")] []]
    [Node.elem "h1" [] [.text "Someone"]] extractedDoc
    (by unfold headCleanL; decide)

/-- C1, evidence at the failing input (the canonical template):
extraction populates languages, skill items, links and experience, yet
re-extracting from a render of that very document loses them — the
renderer builds entry nodes whose class attribute is literally named
`class_` (bs4 `new_tag` keyword passthrough), which no extractor
selector matches — so extract-after-render is not the identity on
populated fields, while the summary (built from class-less `p` tags
inside the surviving `ql-editor` div) does survive. -/
theorem claim_C1_roundtrip_failure :
    extractedDoc.languages = [⟨"Swedish", 100⟩, ⟨"English", 90⟩] ∧
    roundTripDoc.languages = [] ∧
    extractedDoc.skills = [⟨"Technical Skills", ["Python", "SQL"]⟩,
      ⟨"Soft Skills", ["Leadership"]⟩] ∧
    roundTripDoc.skills = [⟨"Technical Skills", []⟩, ⟨"Soft Skills", []⟩] ∧
    extractedDoc.experience.length = 1 ∧ roundTripDoc.experience = [] ∧
    extractedDoc.links.length = 2 ∧ roundTripDoc.links.length = 1 ∧
    extractedDoc.summary = "A **B** C **D** E" ∧
    roundTripDoc.summary = extractedDoc.summary := by
  decide

end OpenCvGen
